import Mathlib

/-!
Verification of the portfolio version-control subsystem.

This file gives a shallow embedding of the version-control core of the
repository: the data model (portfolios and immutable content versions),
the state-machine operations of the refinement router (refine, confirm,
revert), the generation orchestrator, the deprecated editing router
(manual edit and its version snapshot helper), the content merge engine
(`merge_portfolio_updates`), and the version-listing endpoint of the
retrieval router.  JSON documents are embedded as an inductive `Json`
type, Python dicts as association lists, the relational store as lists
with a fresh-id counter, and fallible external AI collaborators as
`Except`-valued parameters.  Timestamps are passed in as opaque strings.
-/

/-- JSON values, the payload type of the content columns. -/
inductive Json where
  | str (s : String)
  | num (n : Int)
  | bool (b : Bool)
  | null
  | arr (elems : List Json)
  | obj (fields : List (String × Json))

/-- Lookup of a key in an association list representing a Python dict
(first occurrence; Python dicts have unique keys). -/
def jlookup (l : List (String × Json)) (k : String) : Option Json :=
  match l with
  | [] => none
  | (k', v) :: rest => if k' = k then some v else jlookup rest k

/-- Python dict assignment `d[k] = v`: replaces the value at an existing
key in place, otherwise appends the new binding at the end. -/
def setKey (l : List (String × Json)) (k : String) (v : Json) : List (String × Json) :=
  match l with
  | [] => [(k, v)]
  | (k', v') :: rest => if k' = k then (k, v) :: rest else (k', v') :: setKey rest k v

/-- Python dict `d.get(k, dflt)`. -/
def dictGet (l : List (String × Json)) (k : String) (dflt : Json) : Json :=
  match jlookup l k with
  | some v => v
  | none => dflt

/-- Python truthiness of a JSON value (`not x` checks in the routers). -/
def jsonTruthy : Json → Bool
  | Json.str s => !(s = "")
  | Json.num n => !(n = 0)
  | Json.bool b => b
  | Json.null => false
  | Json.arr elems => !elems.isEmpty
  | Json.obj fields => !fields.isEmpty

/-- `version_state` column (`app/models/database.py`). -/
inductive VersionState where
  | DRAFT
  | COMMITTED
deriving DecidableEq

/-- `created_by` column (`app/models/database.py`). -/
inductive VersionCreatedBy where
  | AI
  | USER_MANUAL
  | AI_REFINEMENT
deriving DecidableEq

/-- A row of the `portfolio_versions` table.  Surrogate ids stand for the
UUID strings.  `version_state` defaults to DRAFT and `created_by` to AI at
the column level; timestamps are not modelled. -/
structure PortfolioVersion where
  id : Nat
  portfolio_id : Nat
  version_number : Nat
  version_state : VersionState
  public_portfolio_json : Json
  private_coaching_json : Option Json
  changes_summary : String
  created_by : VersionCreatedBy

/-- A row of the `portfolios` table (the fields the version-control core
reads or writes).  `public_portfolio_json` / `private_coaching_json` are
the nullable content columns on the portfolio record itself, used only by
the deprecated editing router. -/
structure Portfolio where
  id : Nat
  slug : String
  status : String
  current_version_id : Option Nat
  error_message : Option String
  public_portfolio_json : Option (List (String × Json))
  private_coaching_json : Option Json

/-- The persistent store: both tables plus a counter supplying fresh
surrogate ids (standing for freshly generated UUIDs). -/
structure DB where
  portfolios : List Portfolio
  versions : List PortfolioVersion
  next_id : Nat

/-- The empty store. -/
def DB.empty : DB := { portfolios := [], versions := [], next_id := 0 }

/-- Well-formedness: every id already present in the store is strictly
below the fresh-id counter, so newly allocated ids never collide. -/
def DB.WF (db : DB) : Prop :=
  (∀ v ∈ db.versions, v.id < db.next_id) ∧
  (∀ v ∈ db.versions, v.portfolio_id < db.next_id) ∧
  (∀ p ∈ db.portfolios, p.id < db.next_id)

/-- `SELECT * FROM portfolios WHERE slug = :slug` (slug is unique). -/
def findPortfolio (db : DB) (slug : String) : Option Portfolio :=
  db.portfolios.find? (fun p => p.slug == slug)

/-- `SELECT * FROM portfolio_versions WHERE portfolio_id = :pid`. -/
def portfolioVersions (db : DB) (pid : Nat) : List PortfolioVersion :=
  db.versions.filter (fun v => v.portfolio_id == pid)

/-- Helper realising `ORDER BY version_number DESC LIMIT 1` on a nonempty
candidate list: keeps a running maximum by `version_number`. -/
def maxByVersion (v : PortfolioVersion) : List PortfolioVersion → PortfolioVersion
  | [] => v
  | w :: ws => maxByVersion (if v.version_number < w.version_number then w else v) ws

/-- `ORDER BY version_number DESC LIMIT 1` on a candidate list. -/
def latestOf : List PortfolioVersion → Option PortfolioVersion
  | [] => none
  | v :: vs => some (maxByVersion v vs)

/-- The maximal `version_number` in a candidate list, 0 when empty. -/
def maxNumOf (l : List PortfolioVersion) : Nat :=
  match latestOf l with
  | some v => v.version_number
  | none => 0

/-- The latest version of a portfolio: the row with the highest
`version_number`, as queried by the refinement router. -/
def latestVersion (db : DB) (pid : Nat) : Option PortfolioVersion :=
  latestOf (portfolioVersions db pid)

/-- `max(version_number)` over the existing versions of a portfolio, with
0 when none exist — the `scalar_one_or_none() or 0` computation of the
revert endpoint. -/
def maxVersionNumber (db : DB) (pid : Nat) : Nat :=
  maxNumOf (portfolioVersions db pid)

/-- `db.add(version)` followed by flush/commit: append the new row and
advance the id counter past the freshly assigned id. -/
def addVersion (db : DB) (nv : PortfolioVersion) : DB :=
  { db with versions := db.versions ++ [nv], next_id := db.next_id + 1 }

/-- Mutation of the portfolio row with the given id (the ORM object
update that the session commit persists). -/
def updatePortfolio (db : DB) (pid : Nat) (f : Portfolio → Portfolio) : DB :=
  { db with
    portfolios := db.portfolios.map (fun p => if p.id == pid then f p else p) }

/-- `DELETE FROM portfolio_versions WHERE portfolio_id = :pid AND id != :keep`. -/
def deleteOtherVersions (db : DB) (pid : Nat) (keep : Nat) : DB :=
  { db with
    versions := db.versions.filter (fun v => !(v.portfolio_id == pid) || v.id == keep) }

/-- HTTP-level failures raised by the routers. -/
inductive ApiError where
  | notFound (detail : String)
  | badRequest (detail : String)
  | internalError (detail : String)
deriving DecidableEq

/-- The fixed allow-list of manually editable fields
(`merge_portfolio_updates`, `app/services/portfolio_builder_service.py`). -/
def editable_fields : List String :=
  ["professional_summary", "key_strengths", "project_highlights", "skills_summary"]

/-- Python item assignment `j[k] = v` on a JSON value: succeeds when the
value is a dict, raises TypeError (here: `none`) otherwise. -/
def setObjKey (j : Json) (k : String) (v : Json) : Option Json :=
  match j with
  | Json.obj fields => some (Json.obj (setKey fields k v))
  | _ => none

/-- One iteration of the patch loop of `merge_portfolio_updates`: assign
the update into `ai_generated_content` when its key is allow-listed,
skip it silently otherwise. -/
def applyStep (acc : Option Json) (kv : String × Json) : Option Json :=
  match acc with
  | none => none
  | some j => if kv.1 ∈ editable_fields then setObjKey j kv.1 kv.2 else some j

/-- The patch loop of `merge_portfolio_updates`: iterate over the update
items in order and assign each allow-listed field into the
`ai_generated_content` value. -/
def applyAllowedUpdates (agc : Json) (updates : List (String × Json)) : Option Json :=
  updates.foldl applyStep (some agc)

/-- Field-level view of the patch loop when `ai_generated_content` is a
dict: fold the allow-listed updates with `setKey`. -/
def applyUpdatesFields (agc : List (String × Json)) (updates : List (String × Json)) :
    List (String × Json) :=
  updates.foldl
    (fun fields kv => if kv.1 ∈ editable_fields then setKey fields kv.1 kv.2 else fields)
    agc

/-- `merge_portfolio_updates(current_portfolio, updates)` from
`app/services/portfolio_builder_service.py`.  The deep copy is the
identity on pure JSON data; the wall-clock `last_edited` stamp is passed
in as `now`.  Returns `none` where Python would raise a TypeError (a
non-dict value under `ai_generated_content` or `metadata`). -/
def merge_portfolio_updates (current : List (String × Json)) (updates : List (String × Json))
    (now : String) : Option (List (String × Json)) :=
  let step1 : Option (List (String × Json)) :=
    match jlookup current "ai_generated_content" with
    | none => some current
    | some agc =>
      match applyAllowedUpdates agc updates with
      | none => none
      | some agc' => some (setKey current "ai_generated_content" agc')
  match step1 with
  | none => none
  | some d =>
    match jlookup d "metadata" with
    | none => some d
    | some md =>
      match setObjKey md "last_edited" (Json.str now) with
      | none => none
      | some md' => some (setKey d "metadata" md')

/-- The template fallback public content used by the generation router
when the AI content call raises. -/
def template_public_content (name focus : String) : List (String × Json) :=
  [("professional_summary", Json.str (name ++ " is a " ++ focus ++ " developer.")),
   ("key_strengths", Json.arr [Json.str "Technical skills", Json.str "Problem solving"]),
   ("project_highlights", Json.arr []),
   ("skills_summary", Json.obj [("languages", Json.arr []), ("frameworks", Json.arr []),
      ("tools", Json.arr [])])]

/-- The template fallback coaching content used by the generation router
when the AI coaching call raises. -/
def template_coaching_content : List (String × Json) :=
  [("skill_analysis", Json.obj [("strengths", Json.arr []), ("gaps", Json.arr [])]),
   ("learning_path", Json.obj [("immediate", Json.arr []), ("short_term", Json.arr []),
      ("long_term", Json.arr [])]),
   ("interview_prep", Json.obj [("likely_questions", Json.arr []),
      ("talking_points", Json.arr [])]),
   ("market_positioning", Json.obj [("target_roles", Json.arr []),
      ("competitive_advantages", Json.arr []), ("resume_improvements", Json.arr [])])]

/-- `build_public_portfolio_json` from the builder service.  The
`data_sources` section construction and the used-source listing are pure
data plumbing outside every claim; their outputs are taken as the
parameters `data_sources_section` and `data_sources_used`.  The
`generated_at` wall-clock stamp is passed in. -/
def build_public_portfolio_json (name slug focus : String)
    (ai_generated_content : List (String × Json)) (data_sources_section : Json)
    (generated_at : String) (data_sources_used : List String) : List (String × Json) :=
  [("personal_info", Json.obj [("name", Json.str name), ("slug", Json.str slug),
     ("focus", Json.str focus)]),
   ("ai_generated_content", Json.obj
     [("professional_summary", dictGet ai_generated_content "professional_summary" (Json.str "")),
      ("key_strengths", dictGet ai_generated_content "key_strengths" (Json.arr [])),
      ("work_experience", dictGet ai_generated_content "work_experience" (Json.arr [])),
      ("project_highlights", dictGet ai_generated_content "project_highlights" (Json.arr [])),
      ("achievements", dictGet ai_generated_content "achievements" (Json.arr [])),
      ("skills_summary", dictGet ai_generated_content "skills_summary" (Json.obj [])),
      ("contact_info", dictGet ai_generated_content "contact_info" (Json.obj []))]),
   ("data_sources", data_sources_section),
   ("metadata", Json.obj [("generated_at", Json.str generated_at),
      ("data_sources_used", Json.arr (data_sources_used.map Json.str)),
      ("portfolio_focus", Json.str focus)])]

/-- `build_private_coaching_json` from the builder service. -/
def build_private_coaching_json (coaching_insights : List (String × Json))
    (focus generated_at : String) : List (String × Json) :=
  [("skill_analysis", dictGet coaching_insights "skill_analysis" (Json.obj [])),
   ("learning_path", dictGet coaching_insights "learning_path" (Json.obj [])),
   ("interview_prep", dictGet coaching_insights "interview_prep" (Json.obj [])),
   ("market_positioning", dictGet coaching_insights "market_positioning" (Json.obj [])),
   ("metadata", Json.obj [("generated_at", Json.str generated_at),
      ("focus", Json.str focus), ("ai_confidence", Json.str "high")])]

/-- `generate_portfolio` (`app/routers/portfolio_generation_router.py`).
The outcomes of the two fallible AI collaborator calls are the
parameters `genResult` and `coachResult`; a failed call is caught and
replaced by the template fallback, after which version 1 is created
committed and the portfolio is completed.  Returns the new portfolio id
and the created version. -/
def generate_portfolio (db : DB) (name slug focus : String)
    (genResult : Except String (List (String × Json)))
    (coachResult : Except String (List (String × Json)))
    (dataSourcesSection : Json) (sourcesUsed : List String) (generatedAt : String) :
    DB × Except ApiError (Nat × PortfolioVersion) :=
  let portfolio : Portfolio :=
    { id := db.next_id, slug := slug, status := "generating",
      current_version_id := none, error_message := none,
      public_portfolio_json := none, private_coaching_json := none }
  let db1 : DB :=
    { db with portfolios := db.portfolios ++ [portfolio], next_id := db.next_id + 1 }
  let public_content :=
    match genResult with
    | Except.ok c => c
    | Except.error _ => template_public_content name focus
  let private_content :=
    match coachResult with
    | Except.ok c => c
    | Except.error _ => template_coaching_content
  let public_json :=
    build_public_portfolio_json name slug focus public_content dataSourcesSection
      generatedAt sourcesUsed
  let private_json := build_private_coaching_json private_content focus generatedAt
  let version : PortfolioVersion :=
    { id := db1.next_id, portfolio_id := portfolio.id, version_number := 1,
      version_state := VersionState.COMMITTED,
      public_portfolio_json := Json.obj public_json,
      private_coaching_json := some (Json.obj private_json),
      changes_summary := "Initial portfolio generation",
      created_by := VersionCreatedBy.AI }
  let db2 := addVersion db1 version
  let db3 := updatePortfolio db2 portfolio.id (fun p =>
    { p with current_version_id := some version.id, status := "completed" })
  (db3, Except.ok (portfolio.id, version))

/-- `refine_portfolio` (`app/routers/portfolio_refinement_router.py`).
The fallible AI collaborator `refine_portfolio_content` is the function
parameter `refineContent`, applied to the latest version's public
content.  On collaborator failure the endpoint raises before touching
the store. -/
def refine_portfolio (db : DB) (slug : String) (instruction : String)
    (refineContent : Json → Except String Json) : DB × Except ApiError PortfolioVersion :=
  match findPortfolio db slug with
  | none => (db, Except.error (ApiError.notFound ("Portfolio not found with slug: " ++ slug)))
  | some portfolio =>
    match latestVersion db portfolio.id with
    | none => (db, Except.error (ApiError.badRequest
        "No existing version found. Please generate a portfolio first."))
    | some latest =>
      if jsonTruthy latest.public_portfolio_json then
        match refineContent latest.public_portfolio_json with
        | Except.error e =>
          (db, Except.error (ApiError.internalError ("AI refinement failed: " ++ e)))
        | Except.ok refined_json =>
          let new_version : PortfolioVersion :=
            { id := db.next_id, portfolio_id := portfolio.id,
              version_number := latest.version_number + 1,
              version_state := VersionState.DRAFT,
              public_portfolio_json := refined_json,
              private_coaching_json := latest.private_coaching_json,
              changes_summary := "AI refinement: " ++ instruction.take 100,
              created_by := VersionCreatedBy.AI_REFINEMENT }
          let db1 := addVersion db new_version
          let db2 := updatePortfolio db1 portfolio.id (fun p =>
            { p with current_version_id := some new_version.id })
          (db2, Except.ok new_version)
      else
        (db, Except.error (ApiError.badRequest
          "No existing version found. Please generate a portfolio first."))

/-- `confirm_portfolio` (`app/routers/portfolio_refinement_router.py`):
copy the latest version into a fresh committed version, repoint the
portfolio, mark it completed, and delete every other version. -/
def confirm_portfolio (db : DB) (slug : String) : DB × Except ApiError PortfolioVersion :=
  match findPortfolio db slug with
  | none => (db, Except.error (ApiError.notFound ("Portfolio not found with slug: " ++ slug)))
  | some portfolio =>
    match latestVersion db portfolio.id with
    | none => (db, Except.error (ApiError.badRequest
        "No existing version found. Please generate a portfolio first."))
    | some latest =>
      if jsonTruthy latest.public_portfolio_json then
        let committed_version : PortfolioVersion :=
          { id := db.next_id, portfolio_id := portfolio.id,
            version_number := latest.version_number + 1,
            version_state := VersionState.COMMITTED,
            public_portfolio_json := latest.public_portfolio_json,
            private_coaching_json := latest.private_coaching_json,
            changes_summary := "Portfolio confirmed and finalized",
            created_by := VersionCreatedBy.USER_MANUAL }
        let db1 := addVersion db committed_version
        let db2 := updatePortfolio db1 portfolio.id (fun p =>
          { p with current_version_id := some committed_version.id, status := "completed" })
        let db3 := deleteOtherVersions db2 portfolio.id committed_version.id
        (db3, Except.ok committed_version)
      else
        (db, Except.error (ApiError.badRequest
          "No existing version found. Please generate a portfolio first."))

/-- `revert_portfolio` (`app/routers/portfolio_refinement_router.py`):
copy the selected version into a fresh committed version numbered
`max(version_number) + 1`, repoint, mark completed, delete the rest. -/
def revert_portfolio (db : DB) (slug : String) (version_id : Nat) :
    DB × Except ApiError PortfolioVersion :=
  match findPortfolio db slug with
  | none => (db, Except.error (ApiError.notFound ("Portfolio not found with slug: " ++ slug)))
  | some portfolio =>
    match db.versions.find? (fun v => v.id == version_id && v.portfolio_id == portfolio.id) with
    | none => (db, Except.error (ApiError.badRequest
        "Version not found or does not belong to portfolio"))
    | some selected =>
      let new_version_number := maxVersionNumber db portfolio.id + 1
      let committed_version : PortfolioVersion :=
        { id := db.next_id, portfolio_id := portfolio.id,
          version_number := new_version_number,
          version_state := VersionState.COMMITTED,
          public_portfolio_json := selected.public_portfolio_json,
          private_coaching_json := selected.private_coaching_json,
          changes_summary := "Reverted to version " ++ toString selected.version_number,
          created_by := VersionCreatedBy.USER_MANUAL }
      let db1 := addVersion db committed_version
      let db2 := updatePortfolio db1 portfolio.id (fun p =>
        { p with current_version_id := some committed_version.id, status := "completed" })
      let db3 := deleteOtherVersions db2 portfolio.id committed_version.id
      (db3, Except.ok committed_version)

/-- `_create_version_snapshot` (`app/routers/portfolio_editing_router.py`):
snapshot the portfolio record's current content into a new version
numbered `count + 1`; `version_state` is left to its column default
(DRAFT).  Commits immediately. -/
def create_version_snapshot (db : DB) (pid : Nat) (publicJson : Json)
    (privateJson : Option Json) (created_by : VersionCreatedBy) (changes_summary : String) :
    DB × PortfolioVersion :=
  let next_version_number := (portfolioVersions db pid).length + 1
  let version : PortfolioVersion :=
    { id := db.next_id, portfolio_id := pid,
      version_number := next_version_number,
      version_state := VersionState.DRAFT,
      public_portfolio_json := publicJson,
      private_coaching_json := privateJson,
      changes_summary := changes_summary,
      created_by := created_by }
  (addVersion db version, version)

/-- `edit_portfolio` (`app/routers/portfolio_editing_router.py`, the
deprecated manual-edit endpoint): snapshot the portfolio record's
pre-edit content as a new version, then merge the requested updates into
the portfolio record's own `public_portfolio_json`.  The `last_edited`
stamp is passed in as `now`. -/
def edit_portfolio (db : DB) (slug : String) (updates : List (String × Json))
    (changes_summary : Option String) (now : String) : DB × Except ApiError Json :=
  match findPortfolio db slug with
  | none => (db, Except.error (ApiError.notFound ("Portfolio not found with slug: " ++ slug)))
  | some portfolio =>
    match portfolio.public_portfolio_json with
    | none => (db, Except.error (ApiError.badRequest "Portfolio has no content to edit"))
    | some cur =>
      if cur.isEmpty then
        (db, Except.error (ApiError.badRequest "Portfolio has no content to edit"))
      else
        let snap := create_version_snapshot db portfolio.id (Json.obj cur)
          portfolio.private_coaching_json VersionCreatedBy.USER_MANUAL
          (changes_summary.getD "Manual edit")
        let db1 := snap.1
        match merge_portfolio_updates cur updates now with
        | none => (db1, Except.error (ApiError.internalError "TypeError"))
        | some updated_portfolio =>
          let db2 := updatePortfolio db1 portfolio.id (fun p =>
            { p with public_portfolio_json := some updated_portfolio })
          (db2, Except.ok (Json.obj updated_portfolio))

/-- Version metadata entries returned by the retrieval router's version
listing. -/
structure VersionMeta where
  id : Nat
  version_number : Nat
  version_state : VersionState
  changes_summary : String
  created_by : VersionCreatedBy
deriving DecidableEq

/-- Projection of a version row to its listed metadata. -/
def versionMeta (v : PortfolioVersion) : VersionMeta :=
  { id := v.id, version_number := v.version_number, version_state := v.version_state,
    changes_summary := v.changes_summary, created_by := v.created_by }

/-- Insertion step of the `ORDER BY version_number DESC` embedding. -/
def insertByNumberDesc (v : PortfolioVersion) :
    List PortfolioVersion → List PortfolioVersion
  | [] => [v]
  | w :: ws =>
    if v.version_number ≤ w.version_number then w :: insertByNumberDesc v ws
    else v :: w :: ws

/-- `ORDER BY version_number DESC` as an insertion sort. -/
def sortByNumberDesc : List PortfolioVersion → List PortfolioVersion
  | [] => []
  | v :: vs => insertByNumberDesc v (sortByNumberDesc vs)

/-- `list_portfolio_versions` (`app/routers/portfolio_retrieval_router.py`):
the versions of the portfolio ordered by descending `version_number`,
truncated to `limit`, together with the reported `total_count`. -/
def list_portfolio_versions (db : DB) (slug : String) (limit : Nat) :
    Except ApiError (List VersionMeta × Nat) :=
  match findPortfolio db slug with
  | none => Except.error (ApiError.notFound ("Portfolio not found with slug: " ++ slug))
  | some portfolio =>
    let versions := (sortByNumberDesc (portfolioVersions db portfolio.id)).take limit
    let version_list := versions.map versionMeta
    Except.ok (version_list, version_list.length)

/-- The endpoint invoked without an explicit `limit` query parameter
(the signature default is 50). -/
def list_portfolio_versions_default (db : DB) (slug : String) :
    Except ApiError (List VersionMeta × Nat) :=
  list_portfolio_versions db slug 50

/-- One registered version-creating operation of the live API (the
generation and refinement routers; the editing router is deprecated and
not registered). -/
inductive Op where
  | generate (name slug focus : String)
      (genResult coachResult : Except String (List (String × Json)))
      (dataSourcesSection : Json) (sourcesUsed : List String) (generatedAt : String)
  | refine (slug instruction : String) (refineContent : Json → Except String Json)
  | confirm (slug : String)
  | revert (slug : String) (version_id : Nat)

/-- Run one operation, returning the updated store and the list of
versions the operation created (empty on failure). -/
def runOp (db : DB) : Op → DB × List PortfolioVersion
  | Op.generate name slug focus genResult coachResult ds su ga =>
    match generate_portfolio db name slug focus genResult coachResult ds su ga with
    | (db', Except.ok pv) => (db', [pv.2])
    | (db', Except.error _) => (db', [])
  | Op.refine slug instruction rc =>
    match refine_portfolio db slug instruction rc with
    | (db', Except.ok v) => (db', [v])
    | (db', Except.error _) => (db', [])
  | Op.confirm slug =>
    match confirm_portfolio db slug with
    | (db', Except.ok v) => (db', [v])
    | (db', Except.error _) => (db', [])
  | Op.revert slug vid =>
    match revert_portfolio db slug vid with
    | (db', Except.ok v) => (db', [v])
    | (db', Except.error _) => (db', [])

/-- The `version_number`s assigned to the versions created for portfolio
`pid` along a trace of operations, in creation order — including numbers
later pruned by confirm or revert. -/
def createdNumbers (db : DB) (ops : List Op) (pid : Nat) : List Nat :=
  match ops with
  | [] => []
  | op :: ops' =>
    let step := runOp db op
    ((step.2.filter (fun v => v.portfolio_id == pid)).map (fun v => v.version_number)) ++
      createdNumbers step.1 ops' pid

/-- Concrete sample document used by the witnesses and counterexamples. -/
def sampleDoc : List (String × Json) :=
  [("personal_info", Json.obj [("name", Json.str "A"), ("slug", Json.str "p"),
     ("focus", Json.str "general")]),
   ("ai_generated_content", Json.obj [("professional_summary", Json.str "old"),
     ("key_strengths", Json.arr [Json.str "s1"])]),
   ("data_sources", Json.str "orig"),
   ("metadata", Json.obj [("portfolio_focus", Json.str "general")])]

/-- Concrete sample portfolio row (slug `p`, id 0, record content set as
by the legacy editing flow). -/
def sampleP : Portfolio :=
  { id := 0, slug := "p", status := "completed", current_version_id := some 1,
    error_message := none, public_portfolio_json := some sampleDoc,
    private_coaching_json := none }

/-- Concrete committed version 1 of the sample portfolio. -/
def sampleV1 : PortfolioVersion :=
  { id := 1, portfolio_id := 0, version_number := 1,
    version_state := VersionState.COMMITTED,
    public_portfolio_json := Json.obj sampleDoc,
    private_coaching_json := none,
    changes_summary := "Initial portfolio generation",
    created_by := VersionCreatedBy.AI }

/-- Concrete sample store: one portfolio with one committed version. -/
def sampleDB : DB := { portfolios := [sampleP], versions := [sampleV1], next_id := 2 }

/-- A collaborator that succeeds and returns the sample document
unchanged. -/
def rcSame : Json → Except String Json := fun j => Except.ok j

/-- A collaborator whose output replaces the whole document, in
particular altering the protected `data_sources` section. -/
def rcEvil : Json → Except String Json :=
  fun _ => Except.ok (Json.obj [("data_sources", Json.str "EVIL")])

/-- A collaborator that raises. -/
def rcFail : Json → Except String Json := fun _ => Except.error "boom"

/-- Concrete sample patch: one allow-listed field and one protected
section. -/
def sampleUpdates : List (String × Json) :=
  [("professional_summary", Json.str "Y"), ("data_sources", Json.str "HACK")]

/-- Concrete sample store with three versions (numbers 1, 2, 3) for the
listing witness. -/
def sampleDB3 : DB :=
  { portfolios := [sampleP],
    versions := [sampleV1,
      { sampleV1 with
        id := 2
        version_number := 2
        version_state := VersionState.DRAFT
        created_by := VersionCreatedBy.AI_REFINEMENT },
      { sampleV1 with id := 3, version_number := 3 }],
    next_id := 4 }

/-- The result of merging `sampleUpdates` into `sampleDoc` with stamp
`T`: the allow-listed summary is replaced, the protected `data_sources`
update is dropped, and metadata gains `last_edited`. -/
def sampleMergedDoc : List (String × Json) :=
  [("personal_info", Json.obj [("name", Json.str "A"), ("slug", Json.str "p"),
     ("focus", Json.str "general")]),
   ("ai_generated_content", Json.obj [("professional_summary", Json.str "Y"),
     ("key_strengths", Json.arr [Json.str "s1"])]),
   ("data_sources", Json.str "orig"),
   ("metadata", Json.obj [("portfolio_focus", Json.str "general"),
     ("last_edited", Json.str "T")])]

/-- Concrete sample trace of registered operations: generate, then
refine, then confirm. -/
def sampleOps : List Op :=
  [Op.generate "A" "a" "general" (Except.ok sampleDoc) (Except.ok []) (Json.str "ds") [] "t",
   Op.refine "a" "i" rcSame, Op.confirm "a"]

/-! ## Lemmas about association-list primitives -/

theorem jlookup_setKey_self (l : List (String × Json)) (k : String) (v : Json) :
    jlookup (setKey l k v) k = some v := by
  induction l with
  | nil => simp [setKey, jlookup]
  | cons hd tl ih =>
    obtain ⟨k', v'⟩ := hd
    by_cases h : k' = k
    · simp [setKey, jlookup, h]
    · simp [setKey, jlookup, h, ih]

theorem jlookup_setKey_ne (l : List (String × Json)) (k' k : String) (v : Json)
    (h : k' ≠ k) : jlookup (setKey l k' v) k = jlookup l k := by
  induction l with
  | nil => simp [setKey, jlookup, h]
  | cons hd tl ih =>
    obtain ⟨k₀, v₀⟩ := hd
    by_cases h0 : k₀ = k'
    · simp [setKey, jlookup, h0, h]
    · by_cases h1 : k₀ = k
      · simp [setKey, jlookup, h0, h1, Ne.symm h]
      · simp [setKey, jlookup, h0, h1, ih]

/-! ## Lemmas about the content merge engine -/

theorem foldl_applyStep_filter (updates : List (String × Json)) :
    ∀ acc : Option Json,
      updates.foldl applyStep acc =
        (updates.filter (fun kv => decide (kv.1 ∈ editable_fields))).foldl applyStep acc := by
  induction updates with
  | nil => intro acc; rfl
  | cons kv rest ih =>
    intro acc
    by_cases h : kv.1 ∈ editable_fields
    · simp only [List.foldl_cons, List.filter_cons, h, decide_True, List.foldl_cons]
      exact ih _
    · have hstep : applyStep acc kv = acc := by
        cases acc with
        | none => rfl
        | some j => simp [applyStep, h]
      simp only [List.foldl_cons, List.filter_cons, h, decide_False, hstep]
      exact ih _

theorem applyAllowedUpdates_filter (agc : Json) (updates : List (String × Json)) :
    applyAllowedUpdates agc updates =
      applyAllowedUpdates agc
        (updates.filter (fun kv => decide (kv.1 ∈ editable_fields))) :=
  foldl_applyStep_filter updates (some agc)

theorem applyAllowedUpdates_obj (updates : List (String × Json)) :
    ∀ agc : List (String × Json),
      applyAllowedUpdates (Json.obj agc) updates =
        some (Json.obj (applyUpdatesFields agc updates)) := by
  induction updates with
  | nil => intro agc; rfl
  | cons kv rest ih =>
    intro agc
    by_cases h : kv.1 ∈ editable_fields
    · simpa [applyAllowedUpdates, applyUpdatesFields, applyStep, setObjKey, h,
        List.foldl_cons] using ih (setKey agc kv.1 kv.2)
    · simpa [applyAllowedUpdates, applyUpdatesFields, applyStep, h,
        List.foldl_cons] using ih agc

theorem jlookup_applyUpdatesFields_not_mem (updates : List (String × Json)) :
    ∀ agc : List (String × Json), ∀ k : String, k ∉ updates.map Prod.fst →
      jlookup (applyUpdatesFields agc updates) k = jlookup agc k := by
  induction updates with
  | nil => intro agc k _; rfl
  | cons kv rest ih =>
    intro agc k hk
    have hk1 : kv.1 ≠ k := fun h => hk (by simp [h])
    have hk2 : k ∉ rest.map Prod.fst := fun h => hk (by simp [h])
    by_cases h : kv.1 ∈ editable_fields
    · simpa [applyUpdatesFields, h, List.foldl_cons,
        jlookup_setKey_ne agc kv.1 k kv.2 hk1] using ih (setKey agc kv.1 kv.2) k hk2
    · simpa [applyUpdatesFields, h, List.foldl_cons] using ih agc k hk2

theorem jlookup_applyUpdatesFields_not_allowed (updates : List (String × Json)) :
    ∀ agc : List (String × Json), ∀ k : String, k ∉ editable_fields →
      jlookup (applyUpdatesFields agc updates) k = jlookup agc k := by
  induction updates with
  | nil => intro agc k _; rfl
  | cons kv rest ih =>
    intro agc k hk
    by_cases h : kv.1 ∈ editable_fields
    · have hk1 : kv.1 ≠ k := fun he => hk (he ▸ h)
      simpa [applyUpdatesFields, h, List.foldl_cons,
        jlookup_setKey_ne agc kv.1 k kv.2 hk1] using ih (setKey agc kv.1 kv.2) k hk
    · simpa [applyUpdatesFields, h, List.foldl_cons] using ih agc k hk

theorem jlookup_applyUpdatesFields_mem (updates : List (String × Json)) :
    ∀ agc : List (String × Json), ∀ k : String, ∀ v : Json,
      (updates.map Prod.fst).Nodup → (k, v) ∈ updates → k ∈ editable_fields →
      jlookup (applyUpdatesFields agc updates) k = some v := by
  induction updates with
  | nil => intro agc k v _ hmem _; cases hmem
  | cons kv rest ih =>
    intro agc k v hnd hmem hall
    have hnd' : (rest.map Prod.fst).Nodup := (List.nodup_cons.mp (by simpa using hnd)).2
    rcases List.mem_cons.mp hmem with heq | htl
    · subst heq
      have hk2 : k ∉ rest.map Prod.fst := (List.nodup_cons.mp (by simpa using hnd)).1
      have : applyUpdatesFields agc ((k, v) :: rest) =
          applyUpdatesFields (setKey agc k v) rest := by
        simp [applyUpdatesFields, hall, List.foldl_cons]
      rw [this, jlookup_applyUpdatesFields_not_mem rest _ k hk2,
        jlookup_setKey_self]
    · have hk1 : kv.1 ≠ k := by
        intro he
        have : k ∈ rest.map Prod.fst := by
          exact List.mem_map.mpr ⟨(k, v), htl, rfl⟩
        have hk2 : kv.1 ∉ rest.map Prod.fst := (List.nodup_cons.mp (by simpa using hnd)).1
        exact hk2 (he ▸ this)
      by_cases h : kv.1 ∈ editable_fields
      · simpa [applyUpdatesFields, h, List.foldl_cons] using
          ih (setKey agc kv.1 kv.2) k v hnd' htl hall
      · simpa [applyUpdatesFields, h, List.foldl_cons] using ih agc k v hnd' htl hall

theorem merge_portfolio_updates_filter (current updates : List (String × Json))
    (now : String) :
    merge_portfolio_updates current updates now =
      merge_portfolio_updates current
        (updates.filter (fun kv => decide (kv.1 ∈ editable_fields))) now := by
  cases h : jlookup current "ai_generated_content" with
  | none => simp only [merge_portfolio_updates, h]
  | some agc =>
    simp only [merge_portfolio_updates, h]
    rw [applyAllowedUpdates_filter]

theorem merge_frame_other_keys (current updates : List (String × Json)) (now : String)
    (out : List (String × Json))
    (hout : merge_portfolio_updates current updates now = some out) :
    ∀ k, k ≠ "ai_generated_content" → k ≠ "metadata" → jlookup out k = jlookup current k := by
  intro k hk1 hk2
  unfold merge_portfolio_updates at hout
  cases h : jlookup current "ai_generated_content" with
  | none =>
    simp only [h] at hout
    cases hmd : jlookup current "metadata" with
    | none => simp only [hmd] at hout; cases hout; rfl
    | some md =>
      simp only [hmd] at hout
      cases hset : setObjKey md "last_edited" (Json.str now) with
      | none => simp only [hset] at hout; cases hout
      | some md' =>
        simp only [hset] at hout
        cases hout
        exact jlookup_setKey_ne current "metadata" k md' (fun h => hk2 h.symm)
  | some agc =>
    simp only [h] at hout
    cases happ : applyAllowedUpdates agc updates with
    | none => simp only [happ] at hout; cases hout
    | some agc' =>
      simp only [happ] at hout
      cases hmd : jlookup (setKey current "ai_generated_content" agc') "metadata" with
      | none =>
        simp only [hmd] at hout
        cases hout
        exact jlookup_setKey_ne current "ai_generated_content" k agc' (fun h => hk1 h.symm)
      | some md =>
        simp only [hmd] at hout
        cases hset : setObjKey md "last_edited" (Json.str now) with
        | none => simp only [hset] at hout; cases hout
        | some md' =>
          simp only [hset] at hout
          cases hout
          rw [jlookup_setKey_ne _ "metadata" k md' (fun h => hk2 h.symm)]
          exact jlookup_setKey_ne current "ai_generated_content" k agc' (fun h => hk1 h.symm)

theorem merge_metadata_stamped (current updates : List (String × Json)) (now : String)
    (out : List (String × Json))
    (hout : merge_portfolio_updates current updates now = some out)
    (md : List (String × Json))
    (hmd : jlookup current "metadata" = some (Json.obj md)) :
    jlookup out "metadata" = some (Json.obj (setKey md "last_edited" (Json.str now))) := by
  unfold merge_portfolio_updates at hout
  cases h : jlookup current "ai_generated_content" with
  | none =>
    simp only [h, hmd, setObjKey] at hout
    cases hout
    exact jlookup_setKey_self current "metadata" _
  | some agc =>
    simp only [h] at hout
    cases happ : applyAllowedUpdates agc updates with
    | none => simp only [happ] at hout; cases hout
    | some agc' =>
      have hmd' : jlookup (setKey current "ai_generated_content" agc') "metadata" =
          some (Json.obj md) := by
        rw [jlookup_setKey_ne current "ai_generated_content" "metadata" agc' (by decide)]
        exact hmd
      simp only [happ, hmd', setObjKey] at hout
      cases hout
      exact jlookup_setKey_self _ "metadata" _

theorem merge_agc_updated (current updates : List (String × Json)) (now : String)
    (out : List (String × Json))
    (hout : merge_portfolio_updates current updates now = some out)
    (agc : List (String × Json))
    (hagc : jlookup current "ai_generated_content" = some (Json.obj agc)) :
    jlookup out "ai_generated_content" =
      some (Json.obj (applyUpdatesFields agc updates)) := by
  unfold merge_portfolio_updates at hout
  have happ := applyAllowedUpdates_obj updates agc
  simp only [hagc, happ] at hout
  have hagc' : jlookup (setKey current "ai_generated_content"
      (Json.obj (applyUpdatesFields agc updates))) "ai_generated_content" =
      some (Json.obj (applyUpdatesFields agc updates)) :=
    jlookup_setKey_self current "ai_generated_content" _
  cases hmd : jlookup (setKey current "ai_generated_content"
      (Json.obj (applyUpdatesFields agc updates))) "metadata" with
  | none => simp only [hmd] at hout; cases hout; exact hagc'
  | some md =>
    simp only [hmd] at hout
    cases hset : setObjKey md "last_edited" (Json.str now) with
    | none => simp only [hset] at hout; cases hout
    | some md' =>
      simp only [hset] at hout
      cases hout
      rw [jlookup_setKey_ne _ "metadata" "ai_generated_content" md' (by decide)]
      exact hagc'

/-! ## Claim C7: the manual-edit merge allow-list and frame -/

/-- C7: for every document and patch, `merge_portfolio_updates` applies
only patch keys in the fixed allow-list, replacing those fields inside
the `ai_generated_content` subsection; keys outside the allow-list are
silently ignored; every other top-level subsection of the output equals
the input, except that `metadata` gains a `last_edited` stamp. -/
theorem merge_respects_allowlist_and_frame
    (current updates : List (String × Json)) (now : String)
    (out : List (String × Json))
    (hout : merge_portfolio_updates current updates now = some out) :
    merge_portfolio_updates current
        (updates.filter (fun kv => decide (kv.1 ∈ editable_fields))) now = some out ∧
    (∀ k, k ≠ "ai_generated_content" → k ≠ "metadata" →
      jlookup out k = jlookup current k) ∧
    (∀ md, jlookup current "metadata" = some (Json.obj md) →
      jlookup out "metadata" = some (Json.obj (setKey md "last_edited" (Json.str now)))) ∧
    (∀ agc, jlookup current "ai_generated_content" = some (Json.obj agc) →
      jlookup out "ai_generated_content" =
        some (Json.obj (applyUpdatesFields agc updates)) ∧
      (∀ k v, (updates.map Prod.fst).Nodup → (k, v) ∈ updates → k ∈ editable_fields →
        jlookup (applyUpdatesFields agc updates) k = some v) ∧
      (∀ k, k ∉ updates.map Prod.fst →
        jlookup (applyUpdatesFields agc updates) k = jlookup agc k) ∧
      (∀ k, k ∉ editable_fields →
        jlookup (applyUpdatesFields agc updates) k = jlookup agc k)) := by
  refine ⟨?_, merge_frame_other_keys current updates now out hout,
    fun md hmd => merge_metadata_stamped current updates now out hout md hmd,
    fun agc hagc => ⟨merge_agc_updated current updates now out hout agc hagc,
      fun k v hnd hmem hall => jlookup_applyUpdatesFields_mem updates agc k v hnd hmem hall,
      fun k hk => jlookup_applyUpdatesFields_not_mem updates agc k hk,
      fun k hk => jlookup_applyUpdatesFields_not_allowed updates agc k hk⟩⟩
  rw [← merge_portfolio_updates_filter]
  exact hout

/-- Witness for C7 at the concrete sample document and patch. -/
theorem merge_respects_allowlist_and_frame_witness :
    merge_portfolio_updates sampleDoc sampleUpdates "T" = some sampleMergedDoc ∧
    (merge_portfolio_updates sampleDoc
        (sampleUpdates.filter (fun kv => decide (kv.1 ∈ editable_fields))) "T" =
      some sampleMergedDoc ∧
    (∀ k, k ≠ "ai_generated_content" → k ≠ "metadata" →
      jlookup sampleMergedDoc k = jlookup sampleDoc k) ∧
    (∀ md, jlookup sampleDoc "metadata" = some (Json.obj md) →
      jlookup sampleMergedDoc "metadata" =
        some (Json.obj (setKey md "last_edited" (Json.str "T")))) ∧
    (∀ agc, jlookup sampleDoc "ai_generated_content" = some (Json.obj agc) →
      jlookup sampleMergedDoc "ai_generated_content" =
        some (Json.obj (applyUpdatesFields agc sampleUpdates)) ∧
      (∀ k v, (sampleUpdates.map Prod.fst).Nodup → (k, v) ∈ sampleUpdates →
          k ∈ editable_fields →
        jlookup (applyUpdatesFields agc sampleUpdates) k = some v) ∧
      (∀ k, k ∉ sampleUpdates.map Prod.fst →
        jlookup (applyUpdatesFields agc sampleUpdates) k = jlookup agc k) ∧
      (∀ k, k ∉ editable_fields →
        jlookup (applyUpdatesFields agc sampleUpdates) k = jlookup agc k))) :=
  ⟨rfl, merge_respects_allowlist_and_frame sampleDoc sampleUpdates "T" sampleMergedDoc rfl⟩

/-! ## Lemmas about latest-version queries -/

theorem maxByVersion_ge_left (l : List PortfolioVersion) :
    ∀ v : PortfolioVersion, v.version_number ≤ (maxByVersion v l).version_number := by
  induction l with
  | nil => intro v; exact le_refl _
  | cons w ws ih =>
    intro v
    by_cases h : v.version_number < w.version_number
    · simpa [maxByVersion, h] using le_trans (le_of_lt h) (ih w)
    · simpa [maxByVersion, h] using ih v

theorem maxByVersion_ge_mem (l : List PortfolioVersion) :
    ∀ v : PortfolioVersion, ∀ u ∈ l,
      u.version_number ≤ (maxByVersion v l).version_number := by
  induction l with
  | nil => intro v u hu; cases hu
  | cons w ws ih =>
    intro v u hu
    simp only [maxByVersion]
    rcases List.mem_cons.mp hu with heq | hu'
    · have key : u.version_number ≤
          (if v.version_number < w.version_number then w else v).version_number := by
        by_cases h : v.version_number < w.version_number
        · rw [heq]; simp [h]
        · rw [heq]; simp only [h, if_neg, if_false]; exact le_of_not_lt h
      exact le_trans key (maxByVersion_ge_left ws _)
    · exact ih _ u hu'

theorem maxByVersion_mem (l : List PortfolioVersion) :
    ∀ v : PortfolioVersion, maxByVersion v l = v ∨ maxByVersion v l ∈ l := by
  induction l with
  | nil => intro v; exact Or.inl rfl
  | cons w ws ih =>
    intro v
    by_cases h : v.version_number < w.version_number
    · rcases ih w with h1 | h1
      · simp only [maxByVersion, h, if_pos]
        exact Or.inr (by rw [h1]; exact List.mem_cons_self w ws)
      · simp only [maxByVersion, h, if_pos]
        exact Or.inr (List.mem_cons_of_mem w h1)
    · rcases ih v with h1 | h1
      · simp only [maxByVersion, h, if_neg, if_false]
        exact Or.inl h1
      · simp only [maxByVersion, h, if_neg, if_false]
        exact Or.inr (List.mem_cons_of_mem w h1)

theorem maxByVersion_append (l1 l2 : List PortfolioVersion) :
    ∀ v : PortfolioVersion, maxByVersion v (l1 ++ l2) = maxByVersion (maxByVersion v l1) l2 := by
  induction l1 with
  | nil => intro v; rfl
  | cons w ws ih =>
    intro v
    simp only [List.cons_append, maxByVersion]
    exact ih _

theorem latestOf_mem (l : List PortfolioVersion) (v : PortfolioVersion)
    (h : latestOf l = some v) : v ∈ l := by
  cases l with
  | nil => cases h
  | cons w ws =>
    simp only [latestOf, Option.some.injEq] at h
    rcases maxByVersion_mem ws w with h1 | h1
    · rw [← h, h1]; exact List.mem_cons_self w ws
    · rw [← h]; exact List.mem_cons_of_mem w h1

theorem latestOf_isMax (l : List PortfolioVersion) (v : PortfolioVersion)
    (h : latestOf l = some v) : ∀ u ∈ l, u.version_number ≤ v.version_number := by
  cases l with
  | nil => cases h
  | cons w ws =>
    simp only [latestOf, Option.some.injEq] at h
    intro u hu
    rcases List.mem_cons.mp hu with rfl | hu'
    · rw [← h]; exact maxByVersion_ge_left ws u
    · rw [← h]; exact maxByVersion_ge_mem ws w u hu'

theorem latestOf_eq_none_iff (l : List PortfolioVersion) :
    latestOf l = none ↔ l = [] := by
  cases l with
  | nil => simp [latestOf]
  | cons w ws => simp [latestOf]

theorem maxNumOf_ge (l : List PortfolioVersion) (u : PortfolioVersion) (hu : u ∈ l) :
    u.version_number ≤ maxNumOf l := by
  cases hl : latestOf l with
  | none =>
    rw [(latestOf_eq_none_iff l).mp hl] at hu
    cases hu
  | some v =>
    simp only [maxNumOf, hl]
    exact latestOf_isMax l v hl u hu

theorem maxNumOf_latest (l : List PortfolioVersion) (v : PortfolioVersion)
    (h : latestOf l = some v) : maxNumOf l = v.version_number := by
  simp [maxNumOf, h]

theorem latestOf_append_gt (l : List PortfolioVersion) (nv : PortfolioVersion)
    (h : maxNumOf l < nv.version_number) : latestOf (l ++ [nv]) = some nv := by
  cases l with
  | nil => rfl
  | cons w ws =>
    simp only [latestOf, List.cons_append, maxByVersion_append ws [nv] w]
    have hlt : (maxByVersion w ws).version_number < nv.version_number := by
      have : maxNumOf (w :: ws) = (maxByVersion w ws).version_number := by
        simp [maxNumOf, latestOf]
      rw [this] at h
      exact h
    simp [maxByVersion, hlt]

theorem maxNumOf_append_gt (l : List PortfolioVersion) (nv : PortfolioVersion)
    (h : maxNumOf l < nv.version_number) : maxNumOf (l ++ [nv]) = nv.version_number := by
  simp [maxNumOf, latestOf_append_gt l nv h]

theorem maxNumOf_singleton (nv : PortfolioVersion) : maxNumOf [nv] = nv.version_number := by
  simp [maxNumOf, latestOf, maxByVersion]

/-! ## Lemmas about the store helpers -/

theorem portfolioVersions_addVersion (db : DB) (nv : PortfolioVersion) (pid : Nat) :
    portfolioVersions (addVersion db nv) pid =
      portfolioVersions db pid ++ if nv.portfolio_id == pid then [nv] else [] := by
  by_cases h : nv.portfolio_id == pid
  · simp [portfolioVersions, addVersion, List.filter_append, h]
  · simp [portfolioVersions, addVersion, List.filter_append, h]

theorem portfolioVersions_addVersion_self (db : DB) (nv : PortfolioVersion)
    (h : nv.portfolio_id = pid) :
    portfolioVersions (addVersion db nv) pid = portfolioVersions db pid ++ [nv] := by
  rw [portfolioVersions_addVersion]
  simp [h]

theorem portfolioVersions_addVersion_ne (db : DB) (nv : PortfolioVersion)
    (h : nv.portfolio_id ≠ pid) :
    portfolioVersions (addVersion db nv) pid = portfolioVersions db pid := by
  rw [portfolioVersions_addVersion]
  simp [h]

theorem portfolioVersions_updatePortfolio (db : DB) (pid : Nat) (f : Portfolio → Portfolio)
    (q : Nat) : portfolioVersions (updatePortfolio db pid f) q = portfolioVersions db q := rfl

theorem portfolioVersions_deleteOther_ne (db : DB) (pid keep q : Nat) (h : q ≠ pid) :
    portfolioVersions (deleteOtherVersions db pid keep) q = portfolioVersions db q := by
  simp only [portfolioVersions, deleteOtherVersions]
  induction db.versions with
  | nil => rfl
  | cons v vs ih =>
    by_cases hv : v.portfolio_id = q
    · have hvp : ¬ v.portfolio_id = pid := by rw [hv]; exact h
      simp [List.filter_cons, hv, hvp, h, Ne.symm h, ih]
    · by_cases hvp : v.portfolio_id = pid
      · by_cases hk : v.id = keep
        · simp [List.filter_cons, hv, hvp, hk, h, Ne.symm h, ih]
        · simp [List.filter_cons, hv, hvp, hk, h, Ne.symm h, ih]
      · simp [List.filter_cons, hv, hvp, h, Ne.symm h, ih]

theorem portfolioVersions_deleteOther_self (db : DB) (pid keep : Nat) :
    portfolioVersions (deleteOtherVersions db pid keep) pid =
      (portfolioVersions db pid).filter (fun v => v.id == keep) := by
  simp only [portfolioVersions, deleteOtherVersions]
  induction db.versions with
  | nil => rfl
  | cons v vs ih =>
    by_cases hv : v.portfolio_id = pid
    · by_cases hk : v.id = keep
      · simp [List.filter_cons, hv, hk, ih]
      · simp [List.filter_cons, hv, hk, ih]
    · simp [List.filter_cons, hv, ih]

theorem findPortfolio_addVersion (db : DB) (nv : PortfolioVersion) (slug : String) :
    findPortfolio (addVersion db nv) slug = findPortfolio db slug := rfl

theorem findPortfolio_deleteOther (db : DB) (pid keep : Nat) (slug : String) :
    findPortfolio (deleteOtherVersions db pid keep) slug = findPortfolio db slug := rfl

theorem findPortfolio_updatePortfolio (db : DB) (pid : Nat) (f : Portfolio → Portfolio)
    (slug : String) (hf : ∀ q, (f q).slug = q.slug) :
    findPortfolio (updatePortfolio db pid f) slug =
      (findPortfolio db slug).map (fun p => if p.id == pid then f p else p) := by
  simp only [findPortfolio, updatePortfolio]
  rw [List.find?_map]
  have hpred : ((fun p => p.slug == slug) ∘ fun p => if p.id == pid then f p else p) =
      (fun p : Portfolio => p.slug == slug) := by
    funext q
    by_cases h : q.id == pid
    · simp [Function.comp, h, hf]
    · simp [Function.comp, h]
  rw [hpred]

theorem WF_addVersion (db : DB) (nv : PortfolioVersion) (hwf : db.WF)
    (h1 : nv.id ≤ db.next_id) (h2 : nv.portfolio_id ≤ db.next_id) :
    (addVersion db nv).WF := by
  obtain ⟨w1, w2, w3⟩ := hwf
  refine ⟨?_, ?_, ?_⟩
  · intro v hv
    simp only [addVersion, List.mem_append, List.mem_singleton] at hv
    rcases hv with hv | rfl
    · exact lt_trans (w1 v hv) (Nat.lt_succ_self _)
    · exact Nat.lt_succ_of_le h1
  · intro v hv
    simp only [addVersion, List.mem_append, List.mem_singleton] at hv
    rcases hv with hv | rfl
    · exact lt_trans (w2 v hv) (Nat.lt_succ_self _)
    · exact Nat.lt_succ_of_le h2
  · intro p hp
    exact lt_trans (w3 p hp) (Nat.lt_succ_self _)

theorem WF_updatePortfolio (db : DB) (pid : Nat) (f : Portfolio → Portfolio) (hwf : db.WF)
    (hf : ∀ q, (f q).id = q.id) : (updatePortfolio db pid f).WF := by
  obtain ⟨w1, w2, w3⟩ := hwf
  refine ⟨w1, w2, ?_⟩
  intro p hp
  simp only [updatePortfolio, List.mem_map] at hp
  obtain ⟨q, hq, hq2⟩ := hp
  by_cases h : q.id == pid
  · rw [← hq2]; simp only [h, if_pos]; rw [hf q]; exact w3 q hq
  · rw [← hq2]; simp only [h, if_neg, if_false]; exact w3 q hq

theorem WF_deleteOther (db : DB) (pid keep : Nat) (hwf : db.WF) :
    (deleteOtherVersions db pid keep).WF := by
  obtain ⟨w1, w2, w3⟩ := hwf
  refine ⟨?_, ?_, w3⟩
  · intro v hv
    exact w1 v (List.mem_of_mem_filter hv)
  · intro v hv
    exact w2 v (List.mem_of_mem_filter hv)

/-! ## Effect lemmas for the state-machine operations -/

theorem pruned_store (db : DB) (pid keep : Nat) (nv : PortfolioVersion)
    (f : Portfolio → Portfolio)
    (hwf1 : ∀ v ∈ db.versions, v.id < db.next_id)
    (hid : nv.id = keep) (hfresh : db.next_id ≤ keep) (hpid : nv.portfolio_id = pid) :
    portfolioVersions
      (deleteOtherVersions (updatePortfolio (addVersion db nv) pid f) pid keep) pid =
      [nv] := by
  rw [portfolioVersions_deleteOther_self, portfolioVersions_updatePortfolio,
    portfolioVersions_addVersion_self db _ hpid, List.filter_append]
  have hnil : (portfolioVersions db pid).filter (fun v => v.id == keep) = [] := by
    refine List.filter_eq_nil_iff.mpr ?_
    intro v hv
    have := hwf1 v (List.mem_of_mem_filter hv)
    simp only [beq_iff_eq]
    omega
  rw [hnil]
  simp [hid]

theorem confirm_effect (db : DB) (slug : String) (p : Portfolio) (latest : PortfolioVersion)
    (hwf : db.WF)
    (hp : findPortfolio db slug = some p)
    (hl : latestVersion db p.id = some latest)
    (ht : jsonTruthy latest.public_portfolio_json = true) :
    ∃ db' nv,
      confirm_portfolio db slug = (db', Except.ok nv) ∧
      nv = { id := db.next_id, portfolio_id := p.id,
             version_number := latest.version_number + 1,
             version_state := VersionState.COMMITTED,
             public_portfolio_json := latest.public_portfolio_json,
             private_coaching_json := latest.private_coaching_json,
             changes_summary := "Portfolio confirmed and finalized",
             created_by := VersionCreatedBy.USER_MANUAL } ∧
      portfolioVersions db' p.id = [nv] ∧
      (∀ q, q ≠ p.id → portfolioVersions db' q = portfolioVersions db q) ∧
      findPortfolio db' slug =
        some { p with current_version_id := some db.next_id, status := "completed" } ∧
      db'.WF ∧
      maxVersionNumber db p.id = latest.version_number ∧
      maxVersionNumber db' p.id = latest.version_number + 1 := by
  obtain ⟨w1, w2, w3⟩ := hwf
  have hpmem : p ∈ db.portfolios := List.mem_of_find?_eq_some hp
  simp only [confirm_portfolio, hp, hl, ht, if_true]
  have hstore := pruned_store db p.id db.next_id
    { id := db.next_id, portfolio_id := p.id,
      version_number := latest.version_number + 1,
      version_state := VersionState.COMMITTED,
      public_portfolio_json := latest.public_portfolio_json,
      private_coaching_json := latest.private_coaching_json,
      changes_summary := "Portfolio confirmed and finalized",
      created_by := VersionCreatedBy.USER_MANUAL }
    (fun q => { q with current_version_id := some db.next_id, status := "completed" })
    w1 rfl (le_refl _) rfl
  refine ⟨_, _, rfl, rfl, hstore, ?_, ?_, ?_, ?_, ?_⟩
  case _ =>
    intro q hq
    rw [portfolioVersions_deleteOther_ne _ _ _ _ hq, portfolioVersions_updatePortfolio,
      portfolioVersions_addVersion_ne]
    exact Ne.symm hq
  case _ =>
    rw [findPortfolio_deleteOther,
      findPortfolio_updatePortfolio _ p.id
        (fun q => { q with current_version_id := some db.next_id, status := "completed" })
        slug (fun q => rfl),
      findPortfolio_addVersion, hp]
    simp
  case _ =>
    refine WF_deleteOther _ _ _ (WF_updatePortfolio _ _ _ ?_ (fun q => rfl))
    refine WF_addVersion _ _ ⟨w1, w2, w3⟩ (le_refl _) ?_
    exact le_of_lt (w3 p hpmem)
  case _ =>
    simp only [maxVersionNumber, latestVersion] at hl ⊢
    exact maxNumOf_latest _ _ hl
  case _ =>
    simp only [maxVersionNumber]
    rw [hstore, maxNumOf_singleton]

theorem revert_effect (db : DB) (slug : String) (version_id : Nat) (p : Portfolio)
    (sel : PortfolioVersion) (hwf : db.WF)
    (hp : findPortfolio db slug = some p)
    (hv : db.versions.find?
      (fun v => v.id == version_id && v.portfolio_id == p.id) = some sel) :
    ∃ db' nv,
      revert_portfolio db slug version_id = (db', Except.ok nv) ∧
      nv = { id := db.next_id, portfolio_id := p.id,
             version_number := maxVersionNumber db p.id + 1,
             version_state := VersionState.COMMITTED,
             public_portfolio_json := sel.public_portfolio_json,
             private_coaching_json := sel.private_coaching_json,
             changes_summary := "Reverted to version " ++ toString sel.version_number,
             created_by := VersionCreatedBy.USER_MANUAL } ∧
      portfolioVersions db' p.id = [nv] ∧
      (∀ q, q ≠ p.id → portfolioVersions db' q = portfolioVersions db q) ∧
      findPortfolio db' slug =
        some { p with current_version_id := some db.next_id, status := "completed" } ∧
      db'.WF ∧
      maxVersionNumber db' p.id = maxVersionNumber db p.id + 1 ∧
      sel ∈ portfolioVersions db p.id ∧
      sel.version_number ≤ maxVersionNumber db p.id := by
  obtain ⟨w1, w2, w3⟩ := hwf
  have hpmem : p ∈ db.portfolios := List.mem_of_find?_eq_some hp
  have hselpred := List.find?_some hv
  have hselmem : sel ∈ db.versions := List.mem_of_find?_eq_some hv
  have hselpid : sel.portfolio_id = p.id := by
    simp only [Bool.and_eq_true, beq_iff_eq] at hselpred
    exact hselpred.2
  have hselpv : sel ∈ portfolioVersions db p.id := by
    simp only [portfolioVersions, List.mem_filter, beq_iff_eq]
    exact ⟨hselmem, hselpid⟩
  simp only [revert_portfolio, hp, hv]
  have hstore := pruned_store db p.id db.next_id
    { id := db.next_id, portfolio_id := p.id,
      version_number := maxVersionNumber db p.id + 1,
      version_state := VersionState.COMMITTED,
      public_portfolio_json := sel.public_portfolio_json,
      private_coaching_json := sel.private_coaching_json,
      changes_summary := "Reverted to version " ++ toString sel.version_number,
      created_by := VersionCreatedBy.USER_MANUAL }
    (fun q => { q with current_version_id := some db.next_id, status := "completed" })
    w1 rfl (le_refl _) rfl
  refine ⟨_, _, rfl, rfl, hstore, ?_, ?_, ?_, ?_, hselpv, ?_⟩
  case _ =>
    intro q hq
    rw [portfolioVersions_deleteOther_ne _ _ _ _ hq, portfolioVersions_updatePortfolio,
      portfolioVersions_addVersion_ne]
    exact Ne.symm hq
  case _ =>
    rw [findPortfolio_deleteOther,
      findPortfolio_updatePortfolio _ p.id
        (fun q => { q with current_version_id := some db.next_id, status := "completed" })
        slug (fun q => rfl),
      findPortfolio_addVersion, hp]
    simp
  case _ =>
    refine WF_deleteOther _ _ _ (WF_updatePortfolio _ _ _ ?_ (fun q => rfl))
    refine WF_addVersion _ _ ⟨w1, w2, w3⟩ (le_refl _) ?_
    exact le_of_lt (w3 p hpmem)
  case _ =>
    have h2 := congrArg maxNumOf hstore
    rw [maxNumOf_singleton] at h2
    exact h2
  case _ =>
    exact maxNumOf_ge _ sel hselpv

theorem revert_error_missing (db : DB) (slug : String) (version_id : Nat) (p : Portfolio)
    (hp : findPortfolio db slug = some p)
    (hv : db.versions.find?
      (fun v => v.id == version_id && v.portfolio_id == p.id) = none) :
    revert_portfolio db slug version_id =
      (db, Except.error (ApiError.badRequest
        "Version not found or does not belong to portfolio")) := by
  simp only [revert_portfolio, hp, hv]

theorem refine_effect (db : DB) (slug instruction : String)
    (rc : Json → Except String Json) (p : Portfolio) (latest : PortfolioVersion)
    (out : Json) (hwf : db.WF)
    (hp : findPortfolio db slug = some p)
    (hl : latestVersion db p.id = some latest)
    (ht : jsonTruthy latest.public_portfolio_json = true)
    (hrc : rc latest.public_portfolio_json = Except.ok out) :
    ∃ db' nv,
      refine_portfolio db slug instruction rc = (db', Except.ok nv) ∧
      nv = { id := db.next_id, portfolio_id := p.id,
             version_number := latest.version_number + 1,
             version_state := VersionState.DRAFT,
             public_portfolio_json := out,
             private_coaching_json := latest.private_coaching_json,
             changes_summary := "AI refinement: " ++ instruction.take 100,
             created_by := VersionCreatedBy.AI_REFINEMENT } ∧
      db'.versions = db.versions ++ [nv] ∧
      portfolioVersions db' p.id = portfolioVersions db p.id ++ [nv] ∧
      (∀ q, q ≠ p.id → portfolioVersions db' q = portfolioVersions db q) ∧
      findPortfolio db' slug = some { p with current_version_id := some db.next_id } ∧
      db'.WF ∧
      maxVersionNumber db p.id = latest.version_number ∧
      maxVersionNumber db' p.id = latest.version_number + 1 := by
  obtain ⟨w1, w2, w3⟩ := hwf
  have hpmem : p ∈ db.portfolios := List.mem_of_find?_eq_some hp
  have hmax : maxVersionNumber db p.id = latest.version_number := by
    simp only [maxVersionNumber, latestVersion] at hl ⊢
    exact maxNumOf_latest _ _ hl
  simp only [refine_portfolio, hp, hl, ht, if_true, hrc]
  have hpv : portfolioVersions
      (updatePortfolio (addVersion db
        { id := db.next_id, portfolio_id := p.id,
          version_number := latest.version_number + 1,
          version_state := VersionState.DRAFT,
          public_portfolio_json := out,
          private_coaching_json := latest.private_coaching_json,
          changes_summary := "AI refinement: " ++ instruction.take 100,
          created_by := VersionCreatedBy.AI_REFINEMENT }) p.id
        (fun q => { q with current_version_id := some db.next_id })) p.id =
      portfolioVersions db p.id ++
        [{ id := db.next_id, portfolio_id := p.id,
           version_number := latest.version_number + 1,
           version_state := VersionState.DRAFT,
           public_portfolio_json := out,
           private_coaching_json := latest.private_coaching_json,
           changes_summary := "AI refinement: " ++ instruction.take 100,
           created_by := VersionCreatedBy.AI_REFINEMENT }] := by
    rw [portfolioVersions_updatePortfolio, portfolioVersions_addVersion_self db _ rfl]
  refine ⟨_, _, rfl, rfl, rfl, hpv, ?_, ?_, ?_, hmax, ?_⟩
  case _ =>
    intro q hq
    rw [portfolioVersions_updatePortfolio, portfolioVersions_addVersion_ne]
    exact Ne.symm hq
  case _ =>
    rw [findPortfolio_updatePortfolio _ p.id
        (fun q => { q with current_version_id := some db.next_id })
        slug (fun q => rfl),
      findPortfolio_addVersion, hp]
    simp
  case _ =>
    refine WF_updatePortfolio _ _ _ ?_ (fun q => rfl)
    refine WF_addVersion _ _ ⟨w1, w2, w3⟩ (le_refl _) ?_
    exact le_of_lt (w3 p hpmem)
  case _ =>
    simp only [maxVersionNumber]
    rw [hpv, maxNumOf_append_gt]
    have : maxNumOf (portfolioVersions db p.id) = latest.version_number := hmax
    simp [this]

theorem refine_error_noop (db : DB) (slug instruction : String)
    (rc : Json → Except String Json) (p : Portfolio) (latest : PortfolioVersion)
    (e : String)
    (hp : findPortfolio db slug = some p)
    (hl : latestVersion db p.id = some latest)
    (ht : jsonTruthy latest.public_portfolio_json = true)
    (hrc : rc latest.public_portfolio_json = Except.error e) :
    refine_portfolio db slug instruction rc =
      (db, Except.error (ApiError.internalError ("AI refinement failed: " ++ e))) := by
  simp only [refine_portfolio, hp, hl, ht, if_true, hrc]

theorem portfolioVersions_set_portfolios (db : DB) (ps : List Portfolio) (n q : Nat) :
    portfolioVersions { db with portfolios := ps, next_id := n } q =
      portfolioVersions db q := rfl

theorem findPortfolio_append_fresh (db : DB) (p0 : Portfolio) (n : Nat) (slug : String)
    (hslug : ∀ q ∈ db.portfolios, q.slug ≠ slug) (hp0 : p0.slug = slug) :
    findPortfolio { db with portfolios := db.portfolios ++ [p0], next_id := n } slug =
      some p0 := by
  simp only [findPortfolio]
  rw [List.find?_append]
  have hnone : db.portfolios.find? (fun p => p.slug == slug) = none := by
    refine List.find?_eq_none.mpr ?_
    intro q hq
    simp only [beq_iff_eq]
    exact hslug q hq
  rw [hnone]
  simp [hp0]

theorem generate_effect (db : DB) (name slug focus : String)
    (genResult coachResult : Except String (List (String × Json)))
    (ds : Json) (su : List String) (ga : String) (hwf : db.WF) :
    ∃ db' v,
      generate_portfolio db name slug focus genResult coachResult ds su ga =
        (db', Except.ok (db.next_id, v)) ∧
      v = { id := db.next_id + 1, portfolio_id := db.next_id, version_number := 1,
            version_state := VersionState.COMMITTED,
            public_portfolio_json := Json.obj (build_public_portfolio_json name slug focus
              (match genResult with
               | Except.ok c => c
               | Except.error _ => template_public_content name focus) ds ga su),
            private_coaching_json := some (Json.obj (build_private_coaching_json
              (match coachResult with
               | Except.ok c => c
               | Except.error _ => template_coaching_content) focus ga)),
            changes_summary := "Initial portfolio generation",
            created_by := VersionCreatedBy.AI } ∧
      portfolioVersions db' db.next_id = [v] ∧
      (∀ q, q ≠ db.next_id → portfolioVersions db' q = portfolioVersions db q) ∧
      db'.WF ∧
      maxVersionNumber db db.next_id = 0 ∧
      maxVersionNumber db' db.next_id = 1 ∧
      ((∀ q ∈ db.portfolios, q.slug ≠ slug) →
        findPortfolio db' slug = some
          { id := db.next_id, slug := slug, status := "completed",
            current_version_id := some (db.next_id + 1), error_message := none,
            public_portfolio_json := none, private_coaching_json := none }) := by
  obtain ⟨w1, w2, w3⟩ := hwf
  have hempty : portfolioVersions db db.next_id = [] := by
    refine List.filter_eq_nil_iff.mpr ?_
    intro v hv
    have := w2 v hv
    simp only [beq_iff_eq]
    omega
  simp only [generate_portfolio]
  refine ⟨_, _, rfl, rfl, ?_, ?_, ?_, ?_, ?_, ?_⟩
  case _ =>
    rw [portfolioVersions_updatePortfolio, portfolioVersions_addVersion_self _ _ rfl,
      portfolioVersions_set_portfolios, hempty, List.nil_append]
  case _ =>
    intro q hq
    rw [portfolioVersions_updatePortfolio, portfolioVersions_addVersion_ne,
      portfolioVersions_set_portfolios]
    exact Ne.symm hq
  case _ =>
    refine WF_updatePortfolio _ _ _ ?_ (fun q => rfl)
    refine WF_addVersion _ _ ?_ (le_refl _) ?_
    · refine ⟨?_, ?_, ?_⟩
      · intro v hv
        exact lt_trans (w1 v hv) (Nat.lt_succ_self _)
      · intro v hv
        exact lt_trans (w2 v hv) (Nat.lt_succ_self _)
      · intro q hq
        simp only [List.mem_append, List.mem_singleton] at hq
        rcases hq with hq | rfl
        · exact lt_trans (w3 q hq) (Nat.lt_succ_self _)
        · exact Nat.lt_succ_self _
    · exact Nat.le_succ _
  case _ =>
    simp only [maxVersionNumber, hempty]
    rfl
  case _ =>
    simp only [maxVersionNumber]
    rw [portfolioVersions_updatePortfolio, portfolioVersions_addVersion_self _ _ rfl,
      portfolioVersions_set_portfolios, hempty, List.nil_append, maxNumOf_singleton]
  case _ =>
    intro hslug
    rw [findPortfolio_updatePortfolio _ db.next_id
        (fun q => { q with current_version_id := some (db.next_id + 1), status := "completed" })
        slug (fun q => rfl),
      findPortfolio_addVersion,
      findPortfolio_append_fresh db _ _ slug hslug rfl]
    simp

theorem confirm_cases (db : DB) (slug : String) :
    (∃ e, confirm_portfolio db slug = (db, Except.error e)) ∨
    (∃ p latest, findPortfolio db slug = some p ∧ latestVersion db p.id = some latest ∧
      jsonTruthy latest.public_portfolio_json = true) := by
  cases hp : findPortfolio db slug with
  | none =>
    exact Or.inl ⟨ApiError.notFound ("Portfolio not found with slug: " ++ slug),
      by simp [confirm_portfolio, hp]⟩
  | some p =>
    cases hl : latestVersion db p.id with
    | none =>
      exact Or.inl ⟨ApiError.badRequest
        "No existing version found. Please generate a portfolio first.",
        by simp [confirm_portfolio, hp, hl]⟩
    | some latest =>
      by_cases ht : jsonTruthy latest.public_portfolio_json
      · exact Or.inr ⟨p, latest, rfl, hl, ht⟩
      · exact Or.inl ⟨ApiError.badRequest
          "No existing version found. Please generate a portfolio first.",
          by simp [confirm_portfolio, hp, hl, ht]⟩

theorem refine_cases (db : DB) (slug instruction : String)
    (rc : Json → Except String Json) :
    (∃ e, refine_portfolio db slug instruction rc = (db, Except.error e)) ∨
    (∃ p latest out, findPortfolio db slug = some p ∧
      latestVersion db p.id = some latest ∧
      jsonTruthy latest.public_portfolio_json = true ∧
      rc latest.public_portfolio_json = Except.ok out) := by
  cases hp : findPortfolio db slug with
  | none =>
    exact Or.inl ⟨ApiError.notFound ("Portfolio not found with slug: " ++ slug),
      by simp [refine_portfolio, hp]⟩
  | some p =>
    cases hl : latestVersion db p.id with
    | none =>
      exact Or.inl ⟨ApiError.badRequest
        "No existing version found. Please generate a portfolio first.",
        by simp [refine_portfolio, hp, hl]⟩
    | some latest =>
      by_cases ht : jsonTruthy latest.public_portfolio_json
      · cases hrc : rc latest.public_portfolio_json with
        | error e =>
          exact Or.inl ⟨ApiError.internalError ("AI refinement failed: " ++ e),
            by simp [refine_portfolio, hp, hl, ht, hrc]⟩
        | ok out => exact Or.inr ⟨p, latest, out, rfl, hl, ht, hrc⟩
      · exact Or.inl ⟨ApiError.badRequest
          "No existing version found. Please generate a portfolio first.",
          by simp [refine_portfolio, hp, hl, ht]⟩

theorem revert_cases (db : DB) (slug : String) (version_id : Nat) :
    (∃ e, revert_portfolio db slug version_id = (db, Except.error e)) ∨
    (∃ p sel, findPortfolio db slug = some p ∧
      db.versions.find? (fun v => v.id == version_id && v.portfolio_id == p.id) = some sel) := by
  cases hp : findPortfolio db slug with
  | none =>
    exact Or.inl ⟨ApiError.notFound ("Portfolio not found with slug: " ++ slug),
      by simp [revert_portfolio, hp]⟩
  | some p =>
    cases hv : db.versions.find? (fun v => v.id == version_id && v.portfolio_id == p.id) with
    | none =>
      exact Or.inl ⟨ApiError.badRequest "Version not found or does not belong to portfolio",
        by simp [revert_portfolio, hp, hv]⟩
    | some sel => exact Or.inr ⟨p, sel, rfl, hv⟩

theorem runOp_step (db : DB) (op : Op) (hwf : db.WF) :
    (runOp db op).1.WF ∧
    (((runOp db op).1 = db ∧ (runOp db op).2 = []) ∨
      ∃ nv, (runOp db op).2 = [nv] ∧
        nv.version_number = maxVersionNumber db nv.portfolio_id + 1 ∧
        maxVersionNumber (runOp db op).1 nv.portfolio_id = nv.version_number ∧
        ∀ q, q ≠ nv.portfolio_id →
          portfolioVersions (runOp db op).1 q = portfolioVersions db q) := by
  cases op with
  | generate name slug focus g c ds su ga =>
    obtain ⟨db', v, heq, hv, hpv, hothers, hwf', hmax0, hmax1, _⟩ :=
      generate_effect db name slug focus g c ds su ga hwf
    have hrun : runOp db (Op.generate name slug focus g c ds su ga) = (db', [v]) := by
      simp [runOp, heq]
    rw [hrun]
    have hvpid : v.portfolio_id = db.next_id := by rw [hv]
    have hvnum : v.version_number = 1 := by rw [hv]
    refine ⟨hwf', Or.inr ⟨v, rfl, ?_, ?_, ?_⟩⟩
    · rw [hvpid, hvnum, hmax0]
    · rw [hvpid, hvnum, hmax1]
    · intro q hq
      rw [hvpid] at hq
      exact hothers q hq
  | refine slug instruction rc =>
    rcases refine_cases db slug instruction rc with ⟨e, heq⟩ | ⟨p, latest, out, hp, hl, ht, hrc⟩
    · have hrun : runOp db (Op.refine slug instruction rc) = (db, []) := by
        simp [runOp, heq]
      rw [hrun]
      exact ⟨hwf, Or.inl ⟨rfl, rfl⟩⟩
    · obtain ⟨db', nv, heq, hnv, _, hpv, hothers, hfind, hwf', hmaxdb, hmax'⟩ :=
        refine_effect db slug instruction rc p latest out hwf hp hl ht hrc
      have hrun : runOp db (Op.refine slug instruction rc) = (db', [nv]) := by
        simp [runOp, heq]
      rw [hrun]
      have hpid : nv.portfolio_id = p.id := by rw [hnv]
      have hnum : nv.version_number = latest.version_number + 1 := by rw [hnv]
      refine ⟨hwf', Or.inr ⟨nv, rfl, ?_, ?_, ?_⟩⟩
      · rw [hpid, hnum, hmaxdb]
      · rw [hpid, hnum, hmax']
      · intro q hq
        rw [hpid] at hq
        exact hothers q hq
  | confirm slug =>
    rcases confirm_cases db slug with ⟨e, heq⟩ | ⟨p, latest, hp, hl, ht⟩
    · have hrun : runOp db (Op.confirm slug) = (db, []) := by simp [runOp, heq]
      rw [hrun]
      exact ⟨hwf, Or.inl ⟨rfl, rfl⟩⟩
    · obtain ⟨db', nv, heq, hnv, hpv, hothers, hfind, hwf', hmaxdb, hmax'⟩ :=
        confirm_effect db slug p latest hwf hp hl ht
      have hrun : runOp db (Op.confirm slug) = (db', [nv]) := by simp [runOp, heq]
      rw [hrun]
      have hpid : nv.portfolio_id = p.id := by rw [hnv]
      have hnum : nv.version_number = latest.version_number + 1 := by rw [hnv]
      refine ⟨hwf', Or.inr ⟨nv, rfl, ?_, ?_, ?_⟩⟩
      · rw [hpid, hnum, hmaxdb]
      · rw [hpid, hnum, hmax']
      · intro q hq
        rw [hpid] at hq
        exact hothers q hq
  | revert slug version_id =>
    rcases revert_cases db slug version_id with ⟨e, heq⟩ | ⟨p, sel, hp, hv⟩
    · have hrun : runOp db (Op.revert slug version_id) = (db, []) := by simp [runOp, heq]
      rw [hrun]
      exact ⟨hwf, Or.inl ⟨rfl, rfl⟩⟩
    · obtain ⟨db', nv, heq, hnv, hpv, hothers, hfind, hwf', hmax', hselmem, hselle⟩ :=
        revert_effect db slug version_id p sel hwf hp hv
      have hrun : runOp db (Op.revert slug version_id) = (db', [nv]) := by simp [runOp, heq]
      rw [hrun]
      have hpid : nv.portfolio_id = p.id := by rw [hnv]
      have hnum : nv.version_number = maxVersionNumber db p.id + 1 := by rw [hnv]
      refine ⟨hwf', Or.inr ⟨nv, rfl, ?_, ?_, ?_⟩⟩
      · rw [hpid, hnum]
      · rw [hpid, hnum, hmax']
      · intro q hq
        rw [hpid] at hq
        exact hothers q hq

theorem createdNumbers_aux (ops : List Op) :
    ∀ db : DB, db.WF → ∀ pid : Nat, ∀ pre : List Nat, ∀ n : Nat, ∀ post : List Nat,
      createdNumbers db ops pid = pre ++ n :: post →
      n = pre.foldl Nat.max (maxVersionNumber db pid) + 1 := by
  induction ops with
  | nil =>
    intro db hwf pid pre n post h
    simp only [createdNumbers] at h
    exact absurd h.symm (by simp)
  | cons op ops ih =>
    intro db hwf pid pre n post h
    obtain ⟨hwf', hstep⟩ := runOp_step db op hwf
    simp only [createdNumbers] at h
    rcases hstep with ⟨hdb, hvs⟩ | ⟨nv, hvs, hnum, hmax', hothers⟩
    · rw [hvs] at h
      simp only [List.filter_nil, List.map_nil, List.nil_append] at h
      rw [hdb] at h
      exact ih db hwf pid pre n post h
    · rw [hvs] at h
      by_cases hq : nv.portfolio_id = pid
      · simp only [List.filter_cons, List.filter_nil, hq, beq_self_eq_true, if_true,
          List.map_cons, List.map_nil, List.cons_append, List.nil_append] at h
        have hM : nv.version_number = maxVersionNumber db pid + 1 := by
          rw [hnum, hq]
        have hM' : maxVersionNumber (runOp db op).1 pid = maxVersionNumber db pid + 1 := by
          rw [← hq, hmax', hM, hq]
        cases pre with
        | nil =>
          simp only [List.nil_append, List.cons.injEq] at h
          rw [← h.1, hM]
          simp
        | cons m pre' =>
          simp only [List.cons_append, List.cons.injEq] at h
          have hrest := ih (runOp db op).1 hwf' pid pre' n post h.2
          rw [hM'] at hrest
          rw [hrest, List.foldl_cons, ← h.1, hM]
          have : Nat.max (maxVersionNumber db pid) (maxVersionNumber db pid + 1) =
              maxVersionNumber db pid + 1 := Nat.max_eq_right (Nat.le_succ _)
          rw [this]
      · have hfilter : ((runOp db op).2.filter (fun v => v.portfolio_id == pid)) = [] := by
          rw [hvs]
          simp [List.filter_cons, hq]
        rw [hvs] at hfilter
        rw [hfilter] at h
        simp only [List.map_nil, List.nil_append] at h
        have hmaxeq : maxVersionNumber (runOp db op).1 pid = maxVersionNumber db pid := by
          simp only [maxVersionNumber]
          rw [hothers pid (fun he => hq he.symm)]
        have hrest := ih (runOp db op).1 hwf' pid pre n post h
        rw [hmaxeq] at hrest
        exact hrest

/-- C2 as amended: along every trace of the registered operations
(generate, refine, confirm, revert), each version created for a
portfolio receives number `1 + max` over all version numbers ever
created for it on the trace, pruned versions included, so numbers are
never reused. -/
theorem registered_ops_version_numbers_monotone (ops : List Op) (pid : Nat)
    (pre : List Nat) (n : Nat) (post : List Nat)
    (h : createdNumbers DB.empty ops pid = pre ++ n :: post) :
    n = pre.foldl Nat.max 0 + 1 := by
  have hwf : DB.empty.WF := by
    refine ⟨?_, ?_, ?_⟩ <;> intro x hx <;> cases hx
  have hres := createdNumbers_aux ops DB.empty hwf pid pre n post h
  rw [show maxVersionNumber DB.empty pid = 0 from rfl] at hres
  exact hres

/-- Witness for the amended C2 on the concrete trace
generate-refine-confirm, whose created numbers are 1, 2, 3. -/
theorem registered_ops_version_numbers_monotone_witness :
    createdNumbers DB.empty sampleOps 0 = [1, 2] ++ 3 :: [] ∧
    3 = [1, 2].foldl Nat.max 0 + 1 :=
  ⟨rfl, registered_ops_version_numbers_monotone sampleOps 0 [1, 2] 3 [] rfl⟩

/-- Counterexample to C2 as stated: after generate/refine/confirm have
issued numbers 1, 2, 3 (the confirm pruning all but number 3), the
deprecated manual-edit snapshot assigns `count + 1 = 2`, reusing the
pruned number 2 instead of `1 + max ever created = 4`. -/
theorem manual_edit_reuses_pruned_number :
    (portfolioVersions (refine_portfolio sampleDB "p" "i" rcSame).1 0).map
        (fun v => v.version_number) = [1, 2] ∧
    (portfolioVersions
        (confirm_portfolio (refine_portfolio sampleDB "p" "i" rcSame).1 "p").1 0).map
        (fun v => v.version_number) = [3] ∧
    (portfolioVersions (edit_portfolio
        (confirm_portfolio (refine_portfolio sampleDB "p" "i" rcSame).1 "p").1 "p"
        [("professional_summary", Json.str "X")] none "T").1 0).map
        (fun v => v.version_number) = [3, 2] ∧
    (2 : Nat) ≠ Nat.max 3 (Nat.max 2 1) + 1 :=
  ⟨rfl, rfl, rfl, by decide⟩

/-! ## Sortedness of the version listing -/

theorem mem_insertByNumberDesc (v : PortfolioVersion) (l : List PortfolioVersion)
    (u : PortfolioVersion) : u ∈ insertByNumberDesc v l ↔ u = v ∨ u ∈ l := by
  induction l with
  | nil => simp [insertByNumberDesc]
  | cons w ws ih =>
    by_cases h : v.version_number ≤ w.version_number
    · simp only [insertByNumberDesc, h, if_pos, List.mem_cons, ih]
      tauto
    · simp only [insertByNumberDesc, h, if_neg, if_false, List.mem_cons]

theorem pairwise_insertByNumberDesc (v : PortfolioVersion) (l : List PortfolioVersion)
    (h : List.Pairwise (fun a b => b.version_number ≤ a.version_number) l) :
    List.Pairwise (fun a b => b.version_number ≤ a.version_number)
      (insertByNumberDesc v l) := by
  induction l with
  | nil => simp [insertByNumberDesc]
  | cons w ws ih =>
    rcases List.pairwise_cons.mp h with ⟨hw, hws⟩
    by_cases hle : v.version_number ≤ w.version_number
    · simp only [insertByNumberDesc, hle, if_pos]
      refine List.pairwise_cons.mpr ⟨?_, ih hws⟩
      intro u hu
      rcases (mem_insertByNumberDesc v ws u).mp hu with rfl | hu'
      · exact hle
      · exact hw u hu'
    · simp only [insertByNumberDesc, hle, if_neg, if_false]
      refine List.pairwise_cons.mpr ⟨?_, h⟩
      intro u hu
      rcases List.mem_cons.mp hu with rfl | hu'
      · exact le_of_lt (lt_of_not_le hle)
      · exact le_trans (hw u hu') (le_of_lt (lt_of_not_le hle))

theorem sortByNumberDesc_sorted (l : List PortfolioVersion) :
    List.Pairwise (fun a b => b.version_number ≤ a.version_number)
      (sortByNumberDesc l) := by
  induction l with
  | nil => simp [sortByNumberDesc]
  | cons v vs ih => exact pairwise_insertByNumberDesc v (sortByNumberDesc vs) ih

/-! ## Claim C10: version listing is truncated, ordered, and reports the
truncated count -/

/-- C10: `list_portfolio_versions` returns at most `limit` entries
(default 50), ordered by descending `version_number`, and the reported
`total_count` equals the length of the returned (possibly truncated)
list rather than the number of stored versions. -/
theorem list_versions_truncated_count (db : DB) (slug : String) (limit : Nat)
    (p : Portfolio) (hp : findPortfolio db slug = some p) :
    ∃ metas total,
      list_portfolio_versions db slug limit = Except.ok (metas, total) ∧
      metas = ((sortByNumberDesc (portfolioVersions db p.id)).take limit).map versionMeta ∧
      total = metas.length ∧
      metas.length ≤ limit ∧
      List.Pairwise (fun a b => b.version_number ≤ a.version_number) metas ∧
      list_portfolio_versions_default db slug = list_portfolio_versions db slug 50 := by
  have heq : list_portfolio_versions db slug limit =
      Except.ok ((((sortByNumberDesc (portfolioVersions db p.id)).take limit).map versionMeta),
        (((sortByNumberDesc (portfolioVersions db p.id)).take limit).map versionMeta).length) := by
    simp [list_portfolio_versions, hp]
  refine ⟨_, _, heq, rfl, rfl, ?_, ?_, rfl⟩
  · rw [List.length_map]
    exact List.length_take_le _ _
  · rw [List.pairwise_map]
    have hsorted := sortByNumberDesc_sorted (portfolioVersions db p.id)
    have htake := hsorted.sublist (List.take_sublist limit _)
    exact htake.imp (fun hab => hab)

/-- Witness for C10 on a store holding three versions, listed with
limit 2: two entries are returned and the reported total is 2, not 3. -/
theorem list_versions_truncated_count_witness :
    findPortfolio sampleDB3 "p" = some sampleP ∧
    (∃ metas total,
      list_portfolio_versions sampleDB3 "p" 2 = Except.ok (metas, total) ∧
      metas =
        ((sortByNumberDesc (portfolioVersions sampleDB3 sampleP.id)).take 2).map versionMeta ∧
      total = metas.length ∧
      metas.length ≤ 2 ∧
      List.Pairwise (fun a b => b.version_number ≤ a.version_number) metas ∧
      list_portfolio_versions_default sampleDB3 "p" =
        list_portfolio_versions sampleDB3 "p" 50) ∧
    (portfolioVersions sampleDB3 sampleP.id).length = 3 :=
  ⟨rfl, list_versions_truncated_count sampleDB3 "p" 2 sampleP rfl, rfl⟩

/-! ## Claim C1: confirm copies the latest version and prunes the rest -/

/-- C1: for a portfolio with at least one version (and schema-conformant,
hence truthy, latest content), confirm creates a new version copying the
highest-numbered version's public and coaching content, committed,
created by `user_manual`, numbered `latest + 1`; it repoints
`current_version_ref`, marks the portfolio completed, and afterwards the
store holds exactly this one version for the portfolio. -/
theorem confirm_creates_single_committed_copy (db : DB) (slug : String)
    (p : Portfolio) (latest : PortfolioVersion)
    (hwf : db.WF)
    (hp : findPortfolio db slug = some p)
    (hl : latestVersion db p.id = some latest)
    (ht : jsonTruthy latest.public_portfolio_json = true) :
    ∃ db' nv,
      confirm_portfolio db slug = (db', Except.ok nv) ∧
      (∀ w ∈ portfolioVersions db p.id, w.version_number ≤ latest.version_number) ∧
      nv.public_portfolio_json = latest.public_portfolio_json ∧
      nv.private_coaching_json = latest.private_coaching_json ∧
      nv.version_state = VersionState.COMMITTED ∧
      nv.created_by = VersionCreatedBy.USER_MANUAL ∧
      nv.version_number = latest.version_number + 1 ∧
      findPortfolio db' slug =
        some { p with current_version_id := some nv.id, status := "completed" } ∧
      portfolioVersions db' p.id = [nv] := by
  obtain ⟨db', nv, heq, hnv, hpv, hothers, hfind, hwf', hmaxdb, hmax'⟩ :=
    confirm_effect db slug p latest hwf hp hl ht
  have hmaxle : ∀ w ∈ portfolioVersions db p.id, w.version_number ≤ latest.version_number :=
    fun w hw => le_of_le_of_eq (maxNumOf_ge (portfolioVersions db p.id) w hw) hmaxdb
  have hid : nv.id = db.next_id := by rw [hnv]
  refine ⟨db', nv, heq, hmaxle, ?_, ?_, ?_, ?_, ?_, ?_, hpv⟩
  · rw [hnv]
  · rw [hnv]
  · rw [hnv]
  · rw [hnv]
  · rw [hnv]
  · rw [hid]
    exact hfind

/-- Witness for C1 on the concrete one-version sample store. -/
theorem confirm_creates_single_committed_copy_witness :
    DB.WF sampleDB ∧
    findPortfolio sampleDB "p" = some sampleP ∧
    latestVersion sampleDB sampleP.id = some sampleV1 ∧
    jsonTruthy sampleV1.public_portfolio_json = true ∧
    (∃ db' nv,
      confirm_portfolio sampleDB "p" = (db', Except.ok nv) ∧
      (∀ w ∈ portfolioVersions sampleDB sampleP.id,
        w.version_number ≤ sampleV1.version_number) ∧
      nv.public_portfolio_json = sampleV1.public_portfolio_json ∧
      nv.private_coaching_json = sampleV1.private_coaching_json ∧
      nv.version_state = VersionState.COMMITTED ∧
      nv.created_by = VersionCreatedBy.USER_MANUAL ∧
      nv.version_number = sampleV1.version_number + 1 ∧
      findPortfolio db' "p" =
        some { sampleP with current_version_id := some nv.id, status := "completed" } ∧
      portfolioVersions db' sampleP.id = [nv]) :=
  ⟨by unfold DB.WF; decide, rfl, rfl, rfl,
    confirm_creates_single_committed_copy sampleDB "p" sampleP sampleV1
      (by unfold DB.WF; decide) rfl rfl rfl⟩

/-! ## Claim C3: revert copies the target at max-plus-one and prunes -/

/-- C3: revert to an owned version creates a new committed version
numbered `max(version_number) + 1` (not `target + 1`), copying the
target's content, created by `user_manual`; it repoints the portfolio,
marks it completed, and leaves only the new version in the store.  A
version id that does not resolve within the portfolio fails with no
state change. -/
theorem revert_copies_target_with_max_plus_one (db : DB) (slug : String)
    (version_id : Nat) (hwf : db.WF) :
    (∀ p sel, findPortfolio db slug = some p →
      db.versions.find? (fun v => v.id == version_id && v.portfolio_id == p.id) = some sel →
      ∃ db' nv,
        revert_portfolio db slug version_id = (db', Except.ok nv) ∧
        nv.version_number = maxVersionNumber db p.id + 1 ∧
        sel.version_number ≤ maxVersionNumber db p.id ∧
        nv.public_portfolio_json = sel.public_portfolio_json ∧
        nv.private_coaching_json = sel.private_coaching_json ∧
        nv.created_by = VersionCreatedBy.USER_MANUAL ∧
        nv.version_state = VersionState.COMMITTED ∧
        findPortfolio db' slug =
          some { p with current_version_id := some nv.id, status := "completed" } ∧
        portfolioVersions db' p.id = [nv]) ∧
    (∀ p, findPortfolio db slug = some p →
      db.versions.find? (fun v => v.id == version_id && v.portfolio_id == p.id) = none →
      revert_portfolio db slug version_id =
        (db, Except.error (ApiError.badRequest
          "Version not found or does not belong to portfolio"))) := by
  constructor
  · intro p sel hp hv
    obtain ⟨db', nv, heq, hnv, hpv, hothers, hfind, hwf', hmax', hselmem, hselle⟩ :=
      revert_effect db slug version_id p sel hwf hp hv
    have hid : nv.id = db.next_id := by rw [hnv]
    refine ⟨db', nv, heq, ?_, hselle, ?_, ?_, ?_, ?_, ?_, hpv⟩
    · rw [hnv]
    · rw [hnv]
    · rw [hnv]
    · rw [hnv]
    · rw [hnv]
    · rw [hid]
      exact hfind
  · intro p hp hv
    exact revert_error_missing db slug version_id p hp hv

/-- Witness for C3 on the three-version sample store: reverting to
version id 1 (number 1) creates version number 4, and a dangling
version id fails. -/
theorem revert_copies_target_with_max_plus_one_witness :
    DB.WF sampleDB3 ∧
    findPortfolio sampleDB3 "p" = some sampleP ∧
    sampleDB3.versions.find?
      (fun v => v.id == 1 && v.portfolio_id == sampleP.id) = some sampleV1 ∧
    (∃ db' nv,
      revert_portfolio sampleDB3 "p" 1 = (db', Except.ok nv) ∧
      nv.version_number = maxVersionNumber sampleDB3 sampleP.id + 1 ∧
      sampleV1.version_number ≤ maxVersionNumber sampleDB3 sampleP.id ∧
      nv.public_portfolio_json = sampleV1.public_portfolio_json ∧
      nv.private_coaching_json = sampleV1.private_coaching_json ∧
      nv.created_by = VersionCreatedBy.USER_MANUAL ∧
      nv.version_state = VersionState.COMMITTED ∧
      findPortfolio db' "p" =
        some { sampleP with current_version_id := some nv.id, status := "completed" } ∧
      portfolioVersions db' sampleP.id = [nv]) ∧
    revert_portfolio sampleDB3 "p" 99 =
      (sampleDB3, Except.error (ApiError.badRequest
        "Version not found or does not belong to portfolio")) :=
  ⟨by unfold DB.WF; decide, rfl, rfl,
    (revert_copies_target_with_max_plus_one sampleDB3 "p" 1
      (by unfold DB.WF; decide)).1 sampleP sampleV1 rfl rfl,
    (revert_copies_target_with_max_plus_one sampleDB3 "p" 99
      (by unfold DB.WF; decide)).2 sampleP rfl rfl⟩

/-! ## Claim C4: refine appends a single draft -/

/-- C4: a successful refine creates exactly one new version, numbered
`latest + 1`, in draft state, created by `ai_refinement`, with
`coaching_content` carried over unchanged from the latest version; it
repoints `current_version_ref` to the draft and deletes no existing
version. -/
theorem refine_appends_single_draft (db : DB) (slug instruction : String)
    (rc : Json → Except String Json) (p : Portfolio) (latest : PortfolioVersion)
    (out : Json) (hwf : db.WF)
    (hp : findPortfolio db slug = some p)
    (hl : latestVersion db p.id = some latest)
    (ht : jsonTruthy latest.public_portfolio_json = true)
    (hrc : rc latest.public_portfolio_json = Except.ok out) :
    ∃ db' nv,
      refine_portfolio db slug instruction rc = (db', Except.ok nv) ∧
      nv.version_number = latest.version_number + 1 ∧
      nv.version_state = VersionState.DRAFT ∧
      nv.created_by = VersionCreatedBy.AI_REFINEMENT ∧
      nv.private_coaching_json = latest.private_coaching_json ∧
      db'.versions = db.versions ++ [nv] ∧
      findPortfolio db' slug = some { p with current_version_id := some nv.id } := by
  obtain ⟨db', nv, heq, hnv, hvs, hpv, hothers, hfind, hwf', hmaxdb, hmax'⟩ :=
    refine_effect db slug instruction rc p latest out hwf hp hl ht hrc
  have hid : nv.id = db.next_id := by rw [hnv]
  refine ⟨db', nv, heq, ?_, ?_, ?_, ?_, hvs, ?_⟩
  · rw [hnv]
  · rw [hnv]
  · rw [hnv]
  · rw [hnv]
  · rw [hid]
    exact hfind

/-- Witness for C4 on the concrete one-version sample store with a
collaborator that returns the document unchanged. -/
theorem refine_appends_single_draft_witness :
    DB.WF sampleDB ∧
    findPortfolio sampleDB "p" = some sampleP ∧
    latestVersion sampleDB sampleP.id = some sampleV1 ∧
    jsonTruthy sampleV1.public_portfolio_json = true ∧
    rcSame sampleV1.public_portfolio_json = Except.ok (Json.obj sampleDoc) ∧
    (∃ db' nv,
      refine_portfolio sampleDB "p" "i" rcSame = (db', Except.ok nv) ∧
      nv.version_number = sampleV1.version_number + 1 ∧
      nv.version_state = VersionState.DRAFT ∧
      nv.created_by = VersionCreatedBy.AI_REFINEMENT ∧
      nv.private_coaching_json = sampleV1.private_coaching_json ∧
      db'.versions = sampleDB.versions ++ [nv] ∧
      findPortfolio db' "p" = some { sampleP with current_version_id := some nv.id }) :=
  ⟨by unfold DB.WF; decide, rfl, rfl, rfl, rfl,
    refine_appends_single_draft sampleDB "p" "i" rcSame sampleP sampleV1 (Json.obj sampleDoc)
      (by unfold DB.WF; decide) rfl rfl rfl rfl⟩

/-! ## Claim C5: refine collaborator failure is an atomic no-op -/

/-- C5: when the content-generation collaborator called by refine
raises, the endpoint fails and the store is exactly as before the call:
the versions table and the portfolio row (hence `current_version_ref`)
are unchanged, and no partial draft is persisted. -/
theorem refine_failure_is_noop (db : DB) (slug instruction : String)
    (rc : Json → Except String Json) (p : Portfolio) (latest : PortfolioVersion)
    (e : String)
    (hp : findPortfolio db slug = some p)
    (hl : latestVersion db p.id = some latest)
    (ht : jsonTruthy latest.public_portfolio_json = true)
    (hrc : rc latest.public_portfolio_json = Except.error e) :
    refine_portfolio db slug instruction rc =
      (db, Except.error (ApiError.internalError ("AI refinement failed: " ++ e))) ∧
    (refine_portfolio db slug instruction rc).1.versions = db.versions ∧
    findPortfolio (refine_portfolio db slug instruction rc).1 slug = some p := by
  have h := refine_error_noop db slug instruction rc p latest e hp hl ht hrc
  refine ⟨h, ?_, ?_⟩
  · rw [h]
  · rw [h]
    exact hp

/-- Witness for C5 on the concrete sample store with a collaborator that
raises. -/
theorem refine_failure_is_noop_witness :
    findPortfolio sampleDB "p" = some sampleP ∧
    latestVersion sampleDB sampleP.id = some sampleV1 ∧
    jsonTruthy sampleV1.public_portfolio_json = true ∧
    rcFail sampleV1.public_portfolio_json = Except.error "boom" ∧
    (refine_portfolio sampleDB "p" "i" rcFail =
      (sampleDB, Except.error (ApiError.internalError ("AI refinement failed: " ++ "boom"))) ∧
    (refine_portfolio sampleDB "p" "i" rcFail).1.versions = sampleDB.versions ∧
    findPortfolio (refine_portfolio sampleDB "p" "i" rcFail).1 "p" = some sampleP) :=
  ⟨rfl, rfl, rfl, rfl,
    refine_failure_is_noop sampleDB "p" "i" rcFail sampleP sampleV1 "boom" rfl rfl rfl rfl⟩

/-! ## Claim C8 (corrected): refine persists the collaborator output
verbatim -/

/-- Counterexample to C8 as stated: a collaborator output that rewrites
the protected `data_sources` section is persisted unchanged as the new
draft's public content — the code neither rejects nor ignores it. -/
theorem refine_persists_modified_data_sources :
    ((refine_portfolio sampleDB "p" "i" rcEvil).1.versions.map
        (fun v => v.public_portfolio_json)) =
      [Json.obj sampleDoc, Json.obj [("data_sources", Json.str "EVIL")]] ∧
    jlookup [("data_sources", Json.str "EVIL")] "data_sources" = some (Json.str "EVIL") ∧
    jlookup sampleDoc "data_sources" = some (Json.str "orig") ∧
    ("EVIL" : String) ≠ "orig" :=
  ⟨rfl, rfl, rfl, by decide⟩

/-- C8 as amended: the newly stored draft's `public_content` is exactly
the collaborator's returned document — protection of `personal_info`,
`data_sources` and `metadata` is requested only in the prompt and not
enforced by the code, so those sections equal the prior version's only
when the collaborator output leaves them unchanged. -/
theorem refine_persists_collaborator_output_verbatim (db : DB) (slug instruction : String)
    (rc : Json → Except String Json) (p : Portfolio) (latest : PortfolioVersion)
    (out : Json) (hwf : db.WF)
    (hp : findPortfolio db slug = some p)
    (hl : latestVersion db p.id = some latest)
    (ht : jsonTruthy latest.public_portfolio_json = true)
    (hrc : rc latest.public_portfolio_json = Except.ok out) :
    ∃ db' nv,
      refine_portfolio db slug instruction rc = (db', Except.ok nv) ∧
      nv.public_portfolio_json = out ∧
      db'.versions = db.versions ++ [nv] := by
  obtain ⟨db', nv, heq, hnv, hvs, hpv, hothers, hfind, hwf', hmaxdb, hmax'⟩ :=
    refine_effect db slug instruction rc p latest out hwf hp hl ht hrc
  refine ⟨db', nv, heq, ?_, hvs⟩
  rw [hnv]

/-- Witness for the amended C8 with the collaborator that rewrites
`data_sources`: its output is stored verbatim. -/
theorem refine_persists_collaborator_output_verbatim_witness :
    DB.WF sampleDB ∧
    findPortfolio sampleDB "p" = some sampleP ∧
    latestVersion sampleDB sampleP.id = some sampleV1 ∧
    jsonTruthy sampleV1.public_portfolio_json = true ∧
    rcEvil sampleV1.public_portfolio_json =
      Except.ok (Json.obj [("data_sources", Json.str "EVIL")]) ∧
    (∃ db' nv,
      refine_portfolio sampleDB "p" "i" rcEvil = (db', Except.ok nv) ∧
      nv.public_portfolio_json = Json.obj [("data_sources", Json.str "EVIL")] ∧
      db'.versions = sampleDB.versions ++ [nv]) :=
  ⟨by unfold DB.WF; decide, rfl, rfl, rfl, rfl,
    refine_persists_collaborator_output_verbatim sampleDB "p" "i" rcEvil sampleP sampleV1
      (Json.obj [("data_sources", Json.str "EVIL")])
      (by unfold DB.WF; decide) rfl rfl rfl rfl⟩

/-! ## Claim C9 (corrected): generate falls back on AI failure -/

/-- Counterexample to C9 as stated: when AI content production fails,
the generate call does not fail and does not mark the portfolio as an
error — it completes with a template-fallback version. -/
theorem generate_ai_failure_still_completes :
    ((findPortfolio (generate_portfolio DB.empty "A" "a" "general"
        (Except.error "AI content generation failed") (Except.ok [])
        (Json.str "ds") [] "t").1 "a").map (fun q => q.status) = some "completed") ∧
    ((findPortfolio (generate_portfolio DB.empty "A" "a" "general"
        (Except.error "AI content generation failed") (Except.ok [])
        (Json.str "ds") [] "t").1 "a").map (fun q => q.error_message) = some none) ∧
    (portfolioVersions (generate_portfolio DB.empty "A" "a" "general"
        (Except.error "AI content generation failed") (Except.ok [])
        (Json.str "ds") [] "t").1 0).length = 1 ∧
    ("completed" : String) ≠ "error" :=
  ⟨rfl, rfl, rfl, by decide⟩

/-- C9 as amended: if AI content production fails during generate, the
operation succeeds anyway: the template fallback content is used, a
single committed version 1 created by `ai` is stored for the new
portfolio, and the portfolio is marked completed with no error message
recorded. -/
theorem generate_falls_back_on_ai_failure (db : DB) (name slug focus e : String)
    (coachResult : Except String (List (String × Json)))
    (ds : Json) (su : List String) (ga : String)
    (hwf : db.WF) (hslug : ∀ q ∈ db.portfolios, q.slug ≠ slug) :
    ∃ db' v,
      generate_portfolio db name slug focus (Except.error e) coachResult ds su ga =
        (db', Except.ok (db.next_id, v)) ∧
      v.version_number = 1 ∧
      v.version_state = VersionState.COMMITTED ∧
      v.created_by = VersionCreatedBy.AI ∧
      v.public_portfolio_json = Json.obj (build_public_portfolio_json name slug focus
        (template_public_content name focus) ds ga su) ∧
      portfolioVersions db' db.next_id = [v] ∧
      findPortfolio db' slug = some
        { id := db.next_id, slug := slug, status := "completed",
          current_version_id := some (db.next_id + 1), error_message := none,
          public_portfolio_json := none, private_coaching_json := none } := by
  obtain ⟨db', v, heq, hv, hpv, hothers, hwf', hmax0, hmax1, hfind⟩ :=
    generate_effect db name slug focus (Except.error e) coachResult ds su ga hwf
  refine ⟨db', v, heq, ?_, ?_, ?_, ?_, hpv, hfind hslug⟩
  · rw [hv]
  · rw [hv]
  · rw [hv]
  · rw [hv]

/-- Witness for the amended C9 on the empty store with a failing AI
content call. -/
theorem generate_falls_back_on_ai_failure_witness :
    DB.WF DB.empty ∧
    (∀ q ∈ DB.empty.portfolios, q.slug ≠ "a") ∧
    (∃ db' v,
      generate_portfolio DB.empty "A" "a" "general" (Except.error "boom") (Except.ok [])
        (Json.str "ds") [] "t" = (db', Except.ok (DB.empty.next_id, v)) ∧
      v.version_number = 1 ∧
      v.version_state = VersionState.COMMITTED ∧
      v.created_by = VersionCreatedBy.AI ∧
      v.public_portfolio_json = Json.obj (build_public_portfolio_json "A" "a" "general"
        (template_public_content "A" "general") (Json.str "ds") "t" []) ∧
      portfolioVersions db' DB.empty.next_id = [v] ∧
      findPortfolio db' "a" = some
        { id := DB.empty.next_id, slug := "a", status := "completed",
          current_version_id := some (DB.empty.next_id + 1), error_message := none,
          public_portfolio_json := none, private_coaching_json := none }) :=
  ⟨by unfold DB.WF; decide, by decide,
    generate_falls_back_on_ai_failure DB.empty "A" "a" "general" "boom" (Except.ok [])
      (Json.str "ds") [] "t" (by unfold DB.WF; decide) (by decide)⟩

/-! ## Claim C6 (corrected): manual edit snapshots the pre-edit content -/

/-- Counterexample to C6 as stated: on a store with one committed
version, the manual edit adds a second version that is a DRAFT (the
column default, not committed) holding the pre-edit document — the
edited value "X" is applied to the portfolio record, not stored in the
new version, whose summary still reads "old". -/
theorem edit_snapshot_not_committed_new_content :
    ((portfolioVersions (edit_portfolio sampleDB "p"
        [("professional_summary", Json.str "X")] none "T").1 0).map
        (fun v => v.version_state)) = [VersionState.COMMITTED, VersionState.DRAFT] ∧
    ((portfolioVersions (edit_portfolio sampleDB "p"
        [("professional_summary", Json.str "X")] none "T").1 0).map
        (fun v => v.public_portfolio_json)) = [Json.obj sampleDoc, Json.obj sampleDoc] ∧
    jlookup sampleDoc "ai_generated_content" =
      some (Json.obj [("professional_summary", Json.str "old"),
        ("key_strengths", Json.arr [Json.str "s1"])]) ∧
    ("old" : String) ≠ "X" :=
  ⟨rfl, rfl, rfl, by decide⟩

/-- C6 as amended: on a portfolio whose record holds content `cur` and
whose store holds exactly one version `v1`, a manual edit leaves the
store containing `[v1, snap]` where `v1` is unchanged and `snap` is a
snapshot of the pre-edit record content with `created_by = user_manual`,
`version_state = draft` (the column default) and
`version_number = count + 1 = 2`; the merged updates are applied to the
portfolio record's own `public_portfolio_json`, not to any version. -/
theorem edit_snapshots_pre_edit_content (db : DB) (slug : String)
    (updates : List (String × Json)) (changes_summary : Option String) (now : String)
    (p : Portfolio) (cur merged : List (String × Json)) (v1 : PortfolioVersion)
    (hp : findPortfolio db slug = some p)
    (hcur : p.public_portfolio_json = some cur)
    (hne : cur.isEmpty = false)
    (hpv : portfolioVersions db p.id = [v1])
    (hmerge : merge_portfolio_updates cur updates now = some merged) :
    ∃ db' snap,
      edit_portfolio db slug updates changes_summary now =
        (db', Except.ok (Json.obj merged)) ∧
      portfolioVersions db' p.id = [v1, snap] ∧
      snap.version_number = 2 ∧
      snap.version_state = VersionState.DRAFT ∧
      snap.created_by = VersionCreatedBy.USER_MANUAL ∧
      snap.public_portfolio_json = Json.obj cur ∧
      findPortfolio db' slug = some { p with public_portfolio_json := some merged } := by
  simp only [edit_portfolio, hp, hcur, hne, create_version_snapshot, hmerge,
    Bool.false_eq_true, if_false]
  refine ⟨_,
    { id := db.next_id
      portfolio_id := p.id
      version_number := (portfolioVersions db p.id).length + 1
      version_state := VersionState.DRAFT
      public_portfolio_json := Json.obj cur
      private_coaching_json := p.private_coaching_json
      changes_summary := changes_summary.getD "Manual edit"
      created_by := VersionCreatedBy.USER_MANUAL },
    rfl, ?_, ?_, rfl, rfl, rfl, ?_⟩
  · rw [portfolioVersions_updatePortfolio, portfolioVersions_addVersion_self db _ rfl, hpv]
    rfl
  · show (portfolioVersions db p.id).length + 1 = 2
    rw [hpv]
    rfl
  · rw [findPortfolio_updatePortfolio _ p.id
        (fun q => { q with public_portfolio_json := some merged }) slug (fun q => rfl),
      findPortfolio_addVersion, hp]
    simp

/-- Witness for the amended C6 on the concrete sample store and patch. -/
theorem edit_snapshots_pre_edit_content_witness :
    findPortfolio sampleDB "p" = some sampleP ∧
    sampleP.public_portfolio_json = some sampleDoc ∧
    sampleDoc.isEmpty = false ∧
    portfolioVersions sampleDB sampleP.id = [sampleV1] ∧
    merge_portfolio_updates sampleDoc sampleUpdates "T" = some sampleMergedDoc ∧
    (∃ db' snap,
      edit_portfolio sampleDB "p" sampleUpdates none "T" =
        (db', Except.ok (Json.obj sampleMergedDoc)) ∧
      portfolioVersions db' sampleP.id = [sampleV1, snap] ∧
      snap.version_number = 2 ∧
      snap.version_state = VersionState.DRAFT ∧
      snap.created_by = VersionCreatedBy.USER_MANUAL ∧
      snap.public_portfolio_json = Json.obj sampleDoc ∧
      findPortfolio db' "p" =
        some { sampleP with public_portfolio_json := some sampleMergedDoc }) :=
  ⟨rfl, rfl, rfl, rfl, rfl,
    edit_snapshots_pre_edit_content sampleDB "p" sampleUpdates none "T" sampleP sampleDoc
      sampleMergedDoc sampleV1 rfl rfl rfl rfl rfl⟩
